import Mathlib

/-!
# TDD streaming examples (`tdd_test_v1.cpp`, `tdd_test_v2.cpp`)

A shallow embedding of the two example programs under `host/examples`:

* `tdd_test_v2.cpp`: `transmit_worker` (the burst framing loop run on the
  worker thread) and the continuous receive loop of `main`;
* `tdd_test_v1.cpp`: the strict receive-then-transmit loop of `main`;
* the channel detection loop shared by both programs.

The radio device is an external collaborator.  Every call made on it is
recorded as an `Event` of a trace, and everything it returns (sample counts,
receive metadata, the value of `stop_signal_called` when a loop condition reads
it) is an input of the embedding.  Times are exact rationals (seconds).
-/

namespace TddTest

/-! ## Collaborator types (UHD) -/

/-- Modelled from the spec: `uhd::time_spec_t` is declared in the UHD headers,
which are not part of the sources.  A HardwareTime is an exact number of
seconds, comparable and addable. -/
abbrev time_spec_t := ℚ

/-- Modelled from the spec: the constructor `time_spec_t(secs)` of the UHD
headers; it denotes `secs` seconds. -/
def time_spec_secs (secs : ℚ) : time_spec_t := secs

/-- Modelled from the spec: the constructor `time_spec_t(full_secs, frac_secs)`
of the UHD headers; it denotes `full_secs + frac_secs` seconds. -/
def time_spec_frac (full_secs : ℤ) (frac_secs : ℚ) : time_spec_t :=
  (full_secs : ℚ) + frac_secs

/-- Modelled from the spec: the constructor
`time_spec_t(full_secs, tick_count, tick_rate)` of the UHD headers; it denotes
`full_secs + tick_count / tick_rate` seconds (the clock model's
`delta(sample_count, sample_rate)` when `full_secs = 0`). -/
def time_spec_ticks (full_secs : ℤ) (tick_count : ℕ) (tick_rate : ℚ) : time_spec_t :=
  (full_secs : ℚ) + (tick_count : ℚ) / tick_rate

/-- Modelled from the spec: `uhd::tx_metadata_t`, the transmit metadata fields
consumed by `send`. -/
structure tx_metadata_t where
  start_of_burst : Bool
  end_of_burst : Bool
  has_time_spec : Bool
  time_spec : time_spec_t
  deriving DecidableEq

/-- Modelled from the spec: `uhd::rx_metadata_t::error_code_t`; the programs
only distinguish `ERROR_CODE_NONE`, `ERROR_CODE_TIMEOUT` and every other
enumerator (kept with its numeric value). -/
inductive error_code_t where
  | ERROR_CODE_NONE
  | ERROR_CODE_TIMEOUT
  | ERROR_CODE_OTHER (code : ℕ)
  deriving DecidableEq

/-- Modelled from the spec: `uhd::rx_metadata_t`, the receive metadata fields
filled in by `recv`. -/
structure rx_metadata_t where
  error_code : error_code_t
  time_spec : time_spec_t
  deriving DecidableEq

/-- Modelled from the spec: `uhd::stream_cmd_t::stream_mode_t`, the modes used
by the two programs. -/
inductive stream_mode_t where
  | STREAM_MODE_START_CONTINUOUS
  | STREAM_MODE_STOP_CONTINUOUS
  | STREAM_MODE_NUM_SAMPS_AND_DONE
  deriving DecidableEq

/-- Modelled from the spec: `uhd::stream_cmd_t`, the argument of
`issue_stream_cmd`. -/
structure stream_cmd_t where
  stream_mode : stream_mode_t
  num_samps : ℕ
  stream_now : Bool
  time_spec : time_spec_t
  deriving DecidableEq

/-- Messages written to `stderr` or by `printf` (the `verbose` reports on
`stdout` are not recorded). -/
inductive Message where
  | error_number_of_samples
  | received_timeout
  | received_timeout_samples (num_rx_samps : ℕ)
  | not_all_samples
  | send_timeout
  | receive_timeout_before_all (num_rx_samps : ℕ)
  deriving DecidableEq

/-- The calls made on the radio device and its streams, in program order, each
with what it returned (`send` and `recv` end with the returned sample count,
`recv` also with the metadata it filled in).  Three more events record control:
`check_stop b` says that a loop condition read `stop_signal_called` and found
`b`, `raise` is a `throw std::runtime_error`, `ret` is the return of the
function.  The getters of the device (`get_tx_num_channels`,
`get_max_num_samps`, ...) are not recorded: their results are parameters. -/
inductive Event where
  | set_rx_freq (ch : ℕ)
  | set_tx_freq (ch : ℕ)
  | set_tx_rate (rate : ℚ)
  | set_rx_rate (rate : ℚ)
  | set_time_now (t : time_spec_t)
  | get_tx_stream (channels : List ℕ)
  | get_rx_stream (channels : List ℕ)
  | set_command_time (t : time_spec_t)
  | set_gpio_attr (bank attr : String) (value mask : ℕ)
  | clear_command_time
  | send (nsamps : ℕ) (md : tx_metadata_t) (timeout : ℚ) (num_tx_samps : ℕ)
  | recv (nsamps : ℕ) (timeout : ℚ) (num_rx_samps : ℕ) (md : rx_metadata_t)
  | issue_stream_cmd (cmd : stream_cmd_t)
  | log (msg : Message)
  | check_stop (b : Bool)
  | raise (what : String)
  | ret
  deriving DecidableEq

/-! ## Machine integers -/

/-- The value of a C++ `int` (32 bits, two's complement) holding the
mathematical integer `z`. -/
def int_wrap (z : ℤ) : ℤ := (z + 2 ^ 31) % 2 ^ 32 - 2 ^ 31

/-- The value of a `size_t` (64 bits) holding the natural number `n`. -/
def size_wrap (n : ℕ) : ℕ := n % 2 ^ 64

/-- The `size_t` difference `a - b` of two `size_t` values. -/
def size_sub (a b : ℕ) : ℕ := (a + 2 ^ 64 - b) % 2 ^ 64

/-! ## `transmit_worker` (tdd_test_v2.cpp) -/

/-- The arguments of `transmit_worker` that the schedule depends on. -/
structure TxParams where
  start_time : time_spec_t
  tdd_tx_samps : ℕ
  tdd_rx_samps : ℕ
  rate : ℚ

/-- The local variables of `transmit_worker`. -/
structure TxState where
  flag : ℤ
  tx_packet_count : ℤ
  tx_md : tx_metadata_t
  timeout : ℚ
  gpio789 : ℕ
  deriving DecidableEq

/-- The local `timespec_rx_tdd = time_spec_t(0, tdd_rx_samps, rate)`. -/
def tx_timespec_rx_tdd (p : TxParams) : time_spec_t :=
  time_spec_ticks 0 p.tdd_rx_samps p.rate

/-- The local `timespec_tx_tdd = time_spec_t(0, tdd_tx_samps, rate)`. -/
def tx_timespec_tx_tdd (p : TxParams) : time_spec_t :=
  time_spec_ticks 0 p.tdd_tx_samps p.rate

/-- The state of `transmit_worker` on entry to its loop. -/
def tx_init (p : TxParams) : TxState where
  flag := 1
  tx_packet_count := 0
  tx_md :=
    { start_of_burst := true, end_of_burst := false, has_time_spec := true,
      time_spec := p.start_time }
  timeout := p.start_time + 1 / 10
  gpio789 := 0

/-- Guard of the first block: `tx_packet_count != 0 && flag == 1`. -/
def guard_continue (s : TxState) : Bool :=
  decide (s.tx_packet_count ≠ 0) && decide (s.flag = 1)

/-- Guard of the second block: `tx_packet_count != 0 && flag == 2`. -/
def guard_start (s : TxState) : Bool :=
  decide (s.tx_packet_count ≠ 0) && decide (s.flag = 2)

/-- Guard of the third block: `tx_packet_count != 0 && flag == 3`. -/
def guard_end (s : TxState) : Bool :=
  decide (s.tx_packet_count ≠ 0) && decide (s.flag = 3)

/-- First block of the loop body (continuous tx packets). -/
def block_continue (p : TxParams) (s : TxState) : TxState :=
  if guard_continue s then
    { s with
      tx_md :=
        { s.tx_md with
          start_of_burst := false, end_of_burst := false,
          time_spec := s.tx_md.time_spec + tx_timespec_tx_tdd p } }
  else s

/-- Second block of the loop body (start of burst). -/
def block_start (p : TxParams) (s : TxState) : TxState :=
  if guard_start s then
    { s with
      tx_md :=
        { s.tx_md with
          start_of_burst := true, end_of_burst := false,
          time_spec := s.tx_md.time_spec + tx_timespec_rx_tdd p },
      flag := 1 }
  else s

/-- Third block of the loop body (end of burst). -/
def block_end (p : TxParams) (s : TxState) : TxState :=
  if guard_end s then
    { s with
      tx_md :=
        { s.tx_md with
          start_of_burst := false, end_of_burst := true,
          time_spec := s.tx_md.time_spec + tx_timespec_tx_tdd p },
      flag := 2 }
  else s

/-- The three blocks in program order: the state in which the device calls of
the cycle are made. -/
def tx_blocks (p : TxParams) (s : TxState) : TxState :=
  block_end p (block_start p (block_continue p s))

/-- Which of the three blocks fired in a cycle entered in state `s`, each guard
read when control reaches it. -/
def blocks_fired (p : TxParams) (s : TxState) : List Bool :=
  [guard_continue s, guard_start (block_continue p s),
   guard_end (block_start p (block_continue p s))]

/-- The device calls of one cycle, made in state `s` (after the blocks);
`num_tx_samps` is what `send` returned. -/
def tx_calls (p : TxParams) (s : TxState) (num_tx_samps : ℕ) : List Event :=
  [Event.set_command_time s.tx_md.time_spec,
   Event.set_gpio_attr "FP0" "OUT" (s.gpio789 <<< 7) 0x380,
   Event.clear_command_time,
   Event.send p.tdd_tx_samps s.tx_md s.timeout num_tx_samps] ++
  (if num_tx_samps ≠ p.tdd_tx_samps then [Event.log Message.error_number_of_samples]
   else [])

/-- The updates made after the blocks: the GPIO code, the packet count, the
timeout and the end-of-burst request `tx_packet_count%10 == 9`. -/
def tx_update (s : TxState) : TxState :=
  let count := int_wrap (s.tx_packet_count + 1)
  { s with
    gpio789 := (s.gpio789 + 1) &&& 7,
    tx_packet_count := count,
    timeout := 1 / 10,
    flag := if Int.tmod count 10 = 9 then 3 else s.flag }

/-- One pass through the loop body. -/
def tx_cycle (p : TxParams) (s : TxState) : TxState :=
  tx_update (tx_blocks p s)

/-- The state on entry to cycle `i` (cycles are numbered from 0). -/
def tx_state (p : TxParams) (i : ℕ) : TxState :=
  (tx_cycle p)^[i] (tx_init p)

/-- The metadata passed to `send` in cycle `i`. -/
def tx_send_md (p : TxParams) (i : ℕ) : tx_metadata_t :=
  (tx_blocks p (tx_state p i)).tx_md

/-- What one iteration of the loop of `transmit_worker` reads from outside:
the value of `stop_signal_called` found by the loop condition and, when the
body runs, the value returned by `send`. -/
structure TxInput where
  stop : Bool
  num_tx_samps : ℕ
  deriving DecidableEq

/-- The loop `while(not stop_signal_called)` of `transmit_worker`, entered in
state `s`; no event is produced for an iteration whose input is missing. -/
def tx_loop (p : TxParams) : TxState → List TxInput → List Event
  | _, [] => []
  | s, inp :: inputs =>
      if inp.stop then [Event.check_stop true, Event.ret]
      else
        Event.check_stop false ::
          (tx_calls p (tx_blocks p s) inp.num_tx_samps ++ tx_loop p (tx_cycle p s) inputs)

/-- The function `transmit_worker`. -/
def transmit_worker (p : TxParams) (inputs : List TxInput) : List Event :=
  tx_loop p (tx_init p) inputs

/-- The metadata of the `send` calls of a trace, in order. -/
def sends_of : List Event → List tx_metadata_t
  | [] => []
  | Event.send _ md _ _ :: es => md :: sends_of es
  | _ :: es => sends_of es

/-! ## The burst framing rules as the spec words them -/

/-- The spec's BurstFrameState. -/
inductive BurstFrameState where
  | STARTING
  | CONTINUING
  | ENDING
  deriving DecidableEq

/-- The flags `(start_of_burst, end_of_burst)` the spec attaches to a state. -/
def frame_flags : BurstFrameState → Bool × Bool
  | BurstFrameState.STARTING => (true, false)
  | BurstFrameState.CONTINUING => (false, false)
  | BurstFrameState.ENDING => (false, true)

/-- The spec's four ordered rules (cadence period 10), applied once per
transmit cycle: the state and the scheduled time of cycle `i`.  The window
deltas are `sample_count / sample_rate`. -/
def spec_frame (p : TxParams) : ℕ → BurstFrameState × ℚ
  | 0 => (BurstFrameState.STARTING, p.start_time)
  | i + 1 =>
      let prev := spec_frame p i
      if prev.1 = BurstFrameState.ENDING then
        (BurstFrameState.STARTING, prev.2 + (p.tdd_rx_samps : ℚ) / p.rate)
      else if (i + 1) % 10 = 9 then
        (BurstFrameState.ENDING, prev.2 + (p.tdd_tx_samps : ℚ) / p.rate)
      else
        (BurstFrameState.CONTINUING, prev.2 + (p.tdd_tx_samps : ℚ) / p.rate)

/-- The state the flags of a `send` stand for, when they stand for one. -/
def frame_of (md : tx_metadata_t) : Option BurstFrameState :=
  match md.start_of_burst, md.end_of_burst with
  | true, false => some BurstFrameState.STARTING
  | false, false => some BurstFrameState.CONTINUING
  | false, true => some BurstFrameState.ENDING
  | true, true => none

/-- Closed form of the state of cycle `i` under the cadence of period 10. -/
def frame_closed (i : ℕ) : BurstFrameState :=
  if i % 10 = 0 then BurstFrameState.STARTING
  else if i % 10 = 9 then BurstFrameState.ENDING
  else BurstFrameState.CONTINUING

/-- Closed form of the scheduled time of cycle `i`: one receive window after
every tenth cycle, one transmit window after every other one. -/
def sched_closed (p : TxParams) (i : ℕ) : ℚ :=
  p.start_time + ((i - i / 10 : ℕ) : ℚ) * ((p.tdd_tx_samps : ℚ) / p.rate)
    + ((i / 10 : ℕ) : ℚ) * ((p.tdd_rx_samps : ℚ) / p.rate)

/-- The value of `flag` on entry to cycle `i`, while the count has not wrapped. -/
def flag_closed (i : ℕ) : ℤ :=
  if i % 10 = 9 then 3 else if i % 10 = 0 ∧ i ≠ 0 then 2 else 1

/-- Parameters with a one-sample transmit window, an empty receive window and
a rate of one sample per second. -/
def tx_params_unit : TxParams := ⟨0, 1, 0, 1⟩

/-- The default command line of `tdd_test_v2` (`--secs 1.5`, 10000-sample
windows, rate `100e6/16`) with the start time `main` derives from it. -/
def tx_params_default : TxParams := ⟨3 / 2 + 10000 / 6250000, 10000, 10000, 6250000⟩


/-! ## `main`: command line values and device properties -/

/-- The values `main` works from: the parsed options, the `size_t` values
`chan` parsed from the channel list (one per element of `channel_strings`), and
what the device getters return. -/
structure MainParams where
  seconds_in_future : ℚ
  tdd_tx_samps : ℕ
  tdd_rx_samps : ℕ
  rate : ℚ
  chans : List ℕ
  tx_num_channels : ℕ
  rx_num_channels : ℕ
  rx_max_num_samps : ℕ

/-- What `recv` returns: the sample count and the metadata it filled in. -/
structure RecvInput where
  num_rx_samps : ℕ
  rx_md : rx_metadata_t
  deriving DecidableEq

/-! ## Channel detection (both programs) -/

/-- The loop `for(ch = 0; ch < channel_strings.size(); ch++)`, entered at index
`ch` with `channel_nums` accumulated so far.  `tune` says whether an accepted
channel is tuned (`set_rx_freq`, `set_tx_freq`, only in tdd_test_v2).  The
result is the trace of the loop and `channel_nums`, or `none` after the throw. -/
def detect_from (tx_num rx_num : ℕ) (tune : Bool) :
    ℕ → List ℕ → List ℕ → List Event × Option (List ℕ)
  | _, channel_nums, [] => ([], some channel_nums)
  | ch, channel_nums, chan :: rest =>
      if chan ≥ tx_num ∨ chan ≥ rx_num then
        ([Event.raise "Invalid channel(s) specified."], none)
      else
        let r := detect_from tx_num rx_num tune (ch + 1) (channel_nums ++ [chan]) rest
        ((if tune then [Event.set_rx_freq ch, Event.set_tx_freq ch] else []) ++ r.1, r.2)

/-- Channel detection of `main`. -/
def detect_channels (p : MainParams) (tune : Bool) : List Event × Option (List ℕ) :=
  detect_from p.tx_num_channels p.rx_num_channels tune 0 [] p.chans

/-! ## `main` of tdd_test_v1.cpp: strict alternation -/

/-- The variables of the loop of tdd_test_v1 that change from cycle to cycle. -/
structure V1State where
  timespec_rx : time_spec_t
  timeout : ℚ
  tx_md : tx_metadata_t
  deriving DecidableEq

/-- What one cycle of the loop of tdd_test_v1 reads from outside: the result of
`recv`, the result of `send` (when it is called) and the value of
`stop_signal_called` found by the loop condition (when it is reached). -/
structure V1Input where
  num_rx_samps : ℕ
  rx_md : rx_metadata_t
  num_tx_samps : ℕ
  stop : Bool
  deriving DecidableEq

/-- The local `timespec_tx_tdd = time_spec_t(0, tdd_tx_samps, rate)`. -/
def v1_timespec_tx_tdd (p : MainParams) : time_spec_t :=
  time_spec_ticks 0 p.tdd_tx_samps p.rate

/-- The local `timespec_tx_advance = time_spec_t(0, 2*tdd_rx_samps+tdd_tx_samps)`:
the two-argument constructor, its second argument computed in `size_t`. -/
def v1_timespec_tx_advance (p : MainParams) : time_spec_t :=
  time_spec_frac 0 ((size_wrap (2 * p.tdd_rx_samps + p.tdd_tx_samps) : ℕ) : ℚ)

/-- The state on entry to the loop of tdd_test_v1. -/
def v1_init (p : MainParams) : V1State where
  timespec_rx := time_spec_secs p.seconds_in_future
  timeout := p.seconds_in_future + 1 / 10
  tx_md :=
    { start_of_burst := true, end_of_burst := true, has_time_spec := true,
      time_spec := time_spec_secs 0 }

/-- The stream command of a cycle of tdd_test_v1. -/
def v1_stream_cmd (p : MainParams) (s : V1State) : stream_cmd_t where
  stream_mode := stream_mode_t.STREAM_MODE_NUM_SAMPS_AND_DONE
  num_samps := p.tdd_rx_samps
  stream_now := false
  time_spec := s.timespec_rx

/-- The metadata of the `send` of a cycle of tdd_test_v1:
`tx_md.time_spec = rx_md.time_spec + timespec_tx_advance`. -/
def v1_tx_md (p : MainParams) (s : V1State) (inp : V1Input) : tx_metadata_t :=
  { s.tx_md with time_spec := inp.rx_md.time_spec + v1_timespec_tx_advance p }

/-- The state at the end of a cycle of tdd_test_v1 that reached the send. -/
def v1_next (p : MainParams) (s : V1State) (inp : V1Input) : V1State where
  timespec_rx := s.timespec_rx + v1_timespec_tx_tdd p
  timeout := 1 / 10
  tx_md := v1_tx_md p s inp

/-- The loop `do ... while (not stop_signal_called)` of tdd_test_v1 followed by
the end of `main`; no event is produced for a cycle whose input is missing. -/
def v1_loop (p : MainParams) : V1State → List V1Input → List Event
  | _, [] => []
  | s, inp :: inputs =>
      Event.issue_stream_cmd (v1_stream_cmd p s) ::
      Event.recv p.rx_max_num_samps s.timeout inp.num_rx_samps inp.rx_md ::
      (if inp.rx_md.error_code = error_code_t.ERROR_CODE_TIMEOUT then
        [Event.log Message.received_timeout, Event.ret]
      else if inp.rx_md.error_code ≠ error_code_t.ERROR_CODE_NONE then
        [Event.raise "Receiver error"]
      else if inp.num_rx_samps < p.tdd_rx_samps then
        [Event.log Message.not_all_samples, Event.ret]
      else
        Event.send p.tdd_tx_samps (v1_tx_md p s inp) (1 / 10) inp.num_tx_samps ::
        ((if inp.num_tx_samps < p.tdd_tx_samps then [Event.log Message.send_timeout]
          else []) ++
         (if inp.stop then [Event.check_stop true, Event.ret]
          else Event.check_stop false :: v1_loop p (v1_next p s inp) inputs)))

/-- The calls of `main` of tdd_test_v1 between channel detection and the loop
(the streams are made from `stream_args` without channels). -/
def v1_setup (p : MainParams) : List Event :=
  [Event.set_tx_rate p.rate, Event.set_rx_rate p.rate,
   Event.set_time_now (time_spec_secs 0),
   Event.get_tx_stream [], Event.get_rx_stream []]

/-- The function `main` of tdd_test_v1 from channel detection on. -/
def v1_main (p : MainParams) (inputs : List V1Input) : List Event :=
  match detect_channels p false with
  | (ev, none) => ev
  | (ev, some _) => ev ++ (v1_setup p ++ v1_loop p (v1_init p) inputs)

/-! ## `main` of tdd_test_v2.cpp: continuous receive -/

/-- The stream command of tdd_test_v2 with the given mode
(`settling_time = 0.2`). -/
def v2_stream_cmd (p : MainParams) (mode : stream_mode_t) : stream_cmd_t where
  stream_mode := mode
  num_samps := p.tdd_rx_samps
  stream_now := false
  time_spec := time_spec_secs (2 / 10)

/-- The arguments `main` of tdd_test_v2 binds to `transmit_worker`:
`timespec_tx_start = timespec_rx_start + timespec_rx_tdd`. -/
def v2_tx_params (p : MainParams) : TxParams where
  start_time := time_spec_secs p.seconds_in_future + time_spec_ticks 0 p.tdd_rx_samps p.rate
  tdd_tx_samps := p.tdd_tx_samps
  tdd_rx_samps := p.tdd_rx_samps
  rate := p.rate

/-- How the inner loop `while(num_rx_samps != tdd_rx_samps)` was left. -/
inductive WindowEnd where
  | left (num_rx_samps : ℕ) (timeout : ℚ) (recvs : List RecvInput)
  | raised
  | running

/-- The inner loop `while(num_rx_samps != tdd_rx_samps)` of tdd_test_v2,
entered with the given accumulator and timeout; `recvs` are the successive
results of `recv`. -/
def v2_window (p : MainParams) : ℕ → ℚ → List RecvInput → List Event × WindowEnd
  | num_rx_samps, timeout, recvs =>
      if num_rx_samps = p.tdd_rx_samps then ([], WindowEnd.left num_rx_samps timeout recvs)
      else
        match recvs with
        | [] => ([], WindowEnd.running)
        | r :: rest =>
            let call :=
              Event.recv (size_sub p.tdd_rx_samps num_rx_samps) timeout r.num_rx_samps r.rx_md
            let num := size_wrap (num_rx_samps + r.num_rx_samps)
            if r.rx_md.error_code = error_code_t.ERROR_CODE_TIMEOUT then
              ([call, Event.log (Message.received_timeout_samples num)],
                WindowEnd.left num (1 / 10) rest)
            else if r.rx_md.error_code ≠ error_code_t.ERROR_CODE_NONE then
              ([call, Event.raise "Receiver error"], WindowEnd.raised)
            else
              let w := v2_window p num (1 / 10) rest
              (call :: w.1, w.2)

/-- The end of `main` of tdd_test_v2, after the loop. -/
def v2_epilogue (p : MainParams) : List Event :=
  [Event.issue_stream_cmd (v2_stream_cmd p stream_mode_t.STREAM_MODE_STOP_CONTINUOUS),
   Event.ret]

/-- The rest of one pass through the body of the outer loop of tdd_test_v2, given
the trace `w.1` of the inner loop and the way `w.2` it was left: the report of
an incomplete window, then `k`, the loop condition and what follows it. -/
def v2_leave (p : MainParams) (k : ℚ → List RecvInput → List Event) :
    List Event × WindowEnd → List Event
  | (ev, WindowEnd.running) => ev
  | (ev, WindowEnd.raised) => ev
  | (ev, WindowEnd.left num_rx_samps timeout1 rest) =>
      ev ++
      ((if num_rx_samps < p.tdd_rx_samps then
        [Event.log (Message.receive_timeout_before_all num_rx_samps)]
       else []) ++
      k timeout1 rest)

/-- One pass through the body of the outer loop of tdd_test_v2
(`size_t num_rx_samps=0;` and the inner loop), then `k`. -/
def v2_cycle (p : MainParams) (k : ℚ → List RecvInput → List Event) (timeout : ℚ)
    (recvs : List RecvInput) : List Event :=
  v2_leave p k (v2_window p 0 timeout recvs)

/-- The loop `do ... while (not stop_signal_called)` of tdd_test_v2 followed by
the end of `main`; `stops` are the successive values the loop condition reads
from `stop_signal_called`, and the trace stops at a condition whose value is
missing. -/
def v2_loop (p : MainParams) : List Bool → ℚ → List RecvInput → List Event
  | [], timeout, recvs => v2_cycle p (fun _ _ => []) timeout recvs
  | true :: _, timeout, recvs =>
      v2_cycle p (fun _ _ => Event.check_stop true :: v2_epilogue p) timeout recvs
  | false :: stops, timeout, recvs =>
      v2_cycle p (fun timeout1 rest => Event.check_stop false :: v2_loop p stops timeout1 rest)
        timeout recvs

/-- The calls of `main` of tdd_test_v2 between channel detection and the loop
(`stream_args.channels = channel_nums`). -/
def v2_setup (p : MainParams) (channel_nums : List ℕ) : List Event :=
  [Event.set_tx_rate p.rate, Event.set_rx_rate p.rate,
   Event.set_time_now (time_spec_secs 0),
   Event.get_tx_stream channel_nums, Event.get_rx_stream channel_nums,
   Event.issue_stream_cmd (v2_stream_cmd p stream_mode_t.STREAM_MODE_START_CONTINUOUS),
   Event.set_gpio_attr "FP0" "DDR" 0xfff 0xfff,
   Event.set_gpio_attr "FP0" "CTRL" 0x0 0xfff]

/-- The function `main` of tdd_test_v2 from channel detection on (the calls of
the worker thread are the trace of `transmit_worker (v2_tx_params p)`). -/
def v2_main (p : MainParams) (stops : List Bool) (recvs : List RecvInput) : List Event :=
  match detect_channels p true with
  | (ev, none) => ev
  | (ev, some channel_nums) =>
      ev ++ (v2_setup p channel_nums ++ v2_loop p stops (p.seconds_in_future + 1 / 10) recvs)

/-- The default command line (`--secs 1.5`, 10000-sample windows, rate
`100e6/16`, channel 0) on a device with one channel each way. -/
def main_params_default : MainParams :=
  ⟨3 / 2, 10000, 10000, 6250000, [0], 1, 1, 2000⟩


/-- One period of the cadence: a STARTING cycle, eight CONTINUING cycles and an
ENDING cycle. -/
def cadence_period : List (Option BurstFrameState) :=
  some BurstFrameState.STARTING ::
    (List.replicate 8 (some BurstFrameState.CONTINUING) ++ [some BurstFrameState.ENDING])

/-- A command line with a one-sample transmit window, an empty receive window,
a rate of one sample per second and no lead time. -/
def main_params_unit : MainParams := ⟨0, 1, 0, 1, [0], 1, 1, 1⟩


/-! ## Reading a trace -/

/-- Every event `e` of the trace `t` stands in relation `R` to the events that
follow it. -/
def followed (R : Event → List Event → Prop) (t : List Event) : Prop :=
  ∀ pre e post, t = pre ++ e :: post → R e post

/-- What follows an event in a run of `main` of tdd_test_v1: after a `recv`
that reports a timeout, the report and the return; after a `recv` that reports
another error, the throw; after a clean `recv` of too few samples, the report
and the return; after a clean `recv` of enough samples, the `send`; after the
stop flag is found set, the return; nothing after a throw or the return. -/
def v1_follow (p : MainParams) : Event → List Event → Prop
  | Event.recv _ _ n md, post =>
      (md.error_code = error_code_t.ERROR_CODE_TIMEOUT →
        post = [Event.log Message.received_timeout, Event.ret]) ∧
      (md.error_code ≠ error_code_t.ERROR_CODE_TIMEOUT →
        md.error_code ≠ error_code_t.ERROR_CODE_NONE →
        post = [Event.raise "Receiver error"]) ∧
      (md.error_code = error_code_t.ERROR_CODE_NONE → n < p.tdd_rx_samps →
        post = [Event.log Message.not_all_samples, Event.ret]) ∧
      (md.error_code = error_code_t.ERROR_CODE_NONE → ¬ n < p.tdd_rx_samps →
        ∃ md1 k post1,
          post = Event.send p.tdd_tx_samps md1 (1 / 10) k :: post1 ∧
          md1.time_spec = md.time_spec + v1_timespec_tx_advance p)
  | Event.check_stop true, post => post = [Event.ret]
  | Event.raise _, post => post = []
  | Event.ret, post => post = []
  | _, _ => True


/-- What follows an event in a run of `main` of tdd_test_v2: after a `recv`
that reports a timeout, the report; after a `recv` that reports another error,
the throw; after a clean `recv`, no throw; after the stop flag is found set,
the stop command and the return; nothing after a throw or the return. -/
def v2_follow (p : MainParams) : Event → List Event → Prop
  | Event.recv _ _ _ md, post =>
      (md.error_code = error_code_t.ERROR_CODE_TIMEOUT →
        ∃ k post1, post = Event.log (Message.received_timeout_samples k) :: post1) ∧
      (md.error_code ≠ error_code_t.ERROR_CODE_TIMEOUT →
        md.error_code ≠ error_code_t.ERROR_CODE_NONE →
        post = [Event.raise "Receiver error"]) ∧
      (md.error_code = error_code_t.ERROR_CODE_NONE →
        ∀ what post1, post ≠ Event.raise what :: post1)
  | Event.check_stop true, post => post = v2_epilogue p
  | Event.raise _, post => post = []
  | Event.ret, post => post = []
  | _, _ => True


/-- What follows an event in a run of `transmit_worker`: after the stop flag is
found set, the return and nothing else. -/
def tx_follow : Event → List Event → Prop
  | Event.check_stop true, post => post = [Event.ret]
  | Event.ret, post => post = []
  | _, _ => True

/-- A first cycle of tdd_test_v1 in which `recv` reports a timeout. -/
def v1_input_timeout : V1Input :=
  ⟨0, ⟨error_code_t.ERROR_CODE_TIMEOUT, 0⟩, 0, false⟩

/-- A cycle of tdd_test_v1 in which `recv` returns 9999 samples and no error. -/
def v1_input_short : V1Input :=
  ⟨9999, ⟨error_code_t.ERROR_CODE_NONE, 3 / 2⟩, 10000, false⟩

/-- A complete cycle of tdd_test_v1: 10000 samples received at 1.5 s, 10000
sent, stop flag not set. -/
def v1_input_full : V1Input :=
  ⟨10000, ⟨error_code_t.ERROR_CODE_NONE, 3 / 2⟩, 10000, false⟩

/-- A cycle of tdd_test_v1 in which `recv` reports an overflow (error code 8). -/
def v1_input_fault : V1Input :=
  ⟨0, ⟨error_code_t.ERROR_CODE_OTHER 8, 0⟩, 0, false⟩


/-- The value of the accumulator `num_rx_samps` after the events of a trace,
when it held `num_rx_samps` before them: every `recv` adds the count it
returned, in `size_t` arithmetic (`num_rx_samps += rx_stream->recv(...)`). -/
def acc_after (num_rx_samps : ℕ) : List Event → ℕ
  | [] => num_rx_samps
  | Event.recv _ _ n _ :: es => acc_after (size_wrap (num_rx_samps + n)) es
  | _ :: es => acc_after num_rx_samps es

/-- Two chunks of 2000 and 8000 samples, received without error. -/
def recvs_two_chunks : List RecvInput :=
  [⟨2000, ⟨error_code_t.ERROR_CODE_NONE, 3 / 2⟩⟩, ⟨8000, ⟨error_code_t.ERROR_CODE_NONE, 3 / 2⟩⟩]

/-! ## Lemmas on `transmit_worker` -/

theorem int_wrap_of_lt (z : ℤ) (h0 : 0 ≤ z) (h1 : z < 2147483648) : int_wrap z = z := by
  unfold int_wrap
  norm_num
  omega

theorem tx_blocks_count (p : TxParams) (s : TxState) :
    (tx_blocks p s).tx_packet_count = s.tx_packet_count := by
  unfold tx_blocks block_end block_start block_continue
  split_ifs <;> rfl

theorem tx_blocks_flag (p : TxParams) (s : TxState) :
    (tx_blocks p s).flag =
      if s.tx_packet_count ≠ 0 ∧ s.flag = 2 then 1
      else if s.tx_packet_count ≠ 0 ∧ s.flag = 3 then 2 else s.flag := by
  unfold tx_blocks block_end block_start block_continue guard_end guard_start guard_continue
  by_cases hc : s.tx_packet_count = 0 <;> by_cases h1 : s.flag = 1 <;>
    by_cases h2 : s.flag = 2 <;> by_cases h3 : s.flag = 3 <;> simp [hc, h1, h2, h3]

theorem tx_blocks_md_zero (p : TxParams) (s : TxState) (hc : s.tx_packet_count = 0) :
    (tx_blocks p s).tx_md = s.tx_md := by
  simp [tx_blocks, block_end, block_start, block_continue, guard_end, guard_start,
    guard_continue, hc]

theorem tx_blocks_md_one (p : TxParams) (s : TxState) (hc : s.tx_packet_count ≠ 0)
    (hf : s.flag = 1) :
    (tx_blocks p s).tx_md =
      { s.tx_md with start_of_burst := false, end_of_burst := false,
                     time_spec := s.tx_md.time_spec + tx_timespec_tx_tdd p } := by
  simp [tx_blocks, block_end, block_start, block_continue, guard_end, guard_start,
    guard_continue, hc, hf]

theorem tx_blocks_md_two (p : TxParams) (s : TxState) (hc : s.tx_packet_count ≠ 0)
    (hf : s.flag = 2) :
    (tx_blocks p s).tx_md =
      { s.tx_md with start_of_burst := true, end_of_burst := false,
                     time_spec := s.tx_md.time_spec + tx_timespec_rx_tdd p } := by
  simp [tx_blocks, block_end, block_start, block_continue, guard_end, guard_start,
    guard_continue, hc, hf]

theorem tx_blocks_md_three (p : TxParams) (s : TxState) (hc : s.tx_packet_count ≠ 0)
    (hf : s.flag = 3) :
    (tx_blocks p s).tx_md =
      { s.tx_md with start_of_burst := false, end_of_burst := true,
                     time_spec := s.tx_md.time_spec + tx_timespec_tx_tdd p } := by
  simp [tx_blocks, block_end, block_start, block_continue, guard_end, guard_start,
    guard_continue, hc, hf]

theorem blocks_fired_one (p : TxParams) (s : TxState) (hc : s.tx_packet_count ≠ 0)
    (hf : s.flag = 1 ∨ s.flag = 2 ∨ s.flag = 3) :
    (blocks_fired p s).count true = 1 := by
  rcases hf with hf | hf | hf <;>
    simp [blocks_fired, block_start, block_continue, guard_end, guard_start,
      guard_continue, hc, hf]

theorem tx_cycle_md (p : TxParams) (s : TxState) :
    (tx_cycle p s).tx_md = (tx_blocks p s).tx_md := rfl

theorem tx_cycle_count (p : TxParams) (s : TxState) :
    (tx_cycle p s).tx_packet_count = int_wrap (s.tx_packet_count + 1) := by
  simp [tx_cycle, tx_update, tx_blocks_count]

theorem tx_cycle_flag (p : TxParams) (s : TxState) :
    (tx_cycle p s).flag =
      if Int.tmod (int_wrap (s.tx_packet_count + 1)) 10 = 9 then 3
      else (tx_blocks p s).flag := by
  simp [tx_cycle, tx_update, tx_blocks_count]

theorem tx_state_succ (p : TxParams) (i : ℕ) :
    tx_state p (i + 1) = tx_cycle p (tx_state p i) := by
  simp [tx_state, Function.iterate_succ_apply']

theorem tx_timespec_tx_tdd_eq (p : TxParams) :
    tx_timespec_tx_tdd p = (p.tdd_tx_samps : ℚ) / p.rate := by
  simp [tx_timespec_tx_tdd, time_spec_ticks]

theorem tx_timespec_rx_tdd_eq (p : TxParams) :
    tx_timespec_rx_tdd p = (p.tdd_rx_samps : ℚ) / p.rate := by
  simp [tx_timespec_rx_tdd, time_spec_ticks]

theorem sched_closed_zero (p : TxParams) : sched_closed p 0 = p.start_time := by
  simp [sched_closed]

theorem sched_closed_succ (p : TxParams) (i : ℕ) :
    sched_closed p (i + 1) =
      sched_closed p i +
        (if (i + 1) % 10 = 0 then (p.tdd_rx_samps : ℚ) / p.rate
         else (p.tdd_tx_samps : ℚ) / p.rate) := by
  unfold sched_closed
  split_ifs with h
  · have h1 : (i + 1) / 10 = i / 10 + 1 := by omega
    have h2 : i + 1 - (i + 1) / 10 = i - i / 10 := by omega
    rw [h2, h1]; push_cast; ring
  · have h1 : (i + 1) / 10 = i / 10 := by omega
    have h2 : i + 1 - (i + 1) / 10 = i - i / 10 + 1 := by omega
    rw [h2, h1]; push_cast; ring

/-- The state on entry to cycle `i`, while `tx_packet_count` has not wrapped:
the count is `i`, the flag follows the cadence and the time is the one of the
previous send. -/
theorem tx_state_inv (p : TxParams) (i : ℕ) (hi : i < 2 ^ 31) :
    (tx_state p i).tx_packet_count = i ∧ (tx_state p i).flag = flag_closed i ∧
      (tx_state p i).tx_md.time_spec = sched_closed p (i - 1) ∧
      (i = 0 → (tx_state p i).tx_md.start_of_burst = true ∧
        (tx_state p i).tx_md.end_of_burst = false) := by
  induction i with
  | zero => simp [tx_state, tx_init, flag_closed, sched_closed]
  | succ n ih =>
    have hi2 : n + 1 < 2147483648 := by
      have h31 : (2 : ℕ) ^ 31 = 2147483648 := by norm_num
      omega
    have hn : n < 2 ^ 31 := by
      have h31 : (2 : ℕ) ^ 31 = 2147483648 := by norm_num
      omega
    obtain ⟨hc, hf, ht, -⟩ := ih hn
    have hw : int_wrap ((n : ℤ) + 1) = (n : ℤ) + 1 :=
      int_wrap_of_lt _ (by omega) (by omega)
    have htm : Int.tmod ((n : ℤ) + 1) 10 = 9 ↔ (n + 1) % 10 = 9 := by
      rw [Int.tmod_eq_emod (by omega) (by omega)]; omega
    refine ⟨?_, ?_, ?_, ?_⟩
    · rw [tx_state_succ, tx_cycle_count, hc, hw]; push_cast; rfl
    · rw [tx_state_succ, tx_cycle_flag, hc, hw, tx_blocks_flag, hc, hf]
      unfold flag_closed
      by_cases h9 : (n + 1) % 10 = 9
      · simp [htm, h9]
      · simp only [htm, h9, if_false]
        by_cases hn0 : n = 0
        · subst hn0; simp
        · have : (n : ℤ) ≠ 0 := by exact_mod_cast hn0
          by_cases ha : n % 10 = 9
          · have hb : (n + 1) % 10 = 0 := by omega
            simp [this, ha, hb]
          · by_cases hb : n % 10 = 0
            · have hb1 : ¬ (n + 1) % 10 = 0 := by omega
              simp [this, ha, hb, hn0, hb1]
            · have hb1 : ¬ (n + 1) % 10 = 0 := by omega
              simp [this, ha, hb, hb1]
    · rw [tx_state_succ, tx_cycle_md]
      simp only [Nat.add_sub_cancel]
      by_cases hn0 : n = 0
      · subst hn0
        rw [tx_blocks_md_zero p _ (by simpa using hc)]
        simpa using ht
      · have hcn : (tx_state p n).tx_packet_count ≠ 0 := by
          rw [hc]; exact_mod_cast hn0
        obtain ⟨m, rfl⟩ : ∃ m, n = m + 1 := ⟨n - 1, by omega⟩
        simp only [Nat.add_sub_cancel] at ht
        rw [sched_closed_succ]
        unfold flag_closed at hf
        by_cases ha : (m + 1) % 10 = 9
        · rw [if_pos ha] at hf
          rw [tx_blocks_md_three p _ hcn hf, if_neg (by omega)]
          simp [ht, tx_timespec_tx_tdd_eq]
        · rw [if_neg ha] at hf
          by_cases hb : (m + 1) % 10 = 0
          · rw [if_pos ⟨hb, by omega⟩] at hf
            rw [tx_blocks_md_two p _ hcn hf, if_pos hb]
            simp [ht, tx_timespec_rx_tdd_eq]
          · rw [if_neg (fun h => hb h.1)] at hf
            rw [tx_blocks_md_one p _ hcn hf, if_neg hb]
            simp [ht, tx_timespec_tx_tdd_eq]
    · intro h; omega


theorem tmod_ten_nonpos (a : ℤ) (h : a ≤ 0) : Int.tmod a 10 ≤ 0 := by
  rcases a with n | n
  · have h0 : (n : ℤ) ≤ 0 := h
    have : n = 0 := by omega
    subst this; decide
  · show Int.tmod (Int.negSucc n) ((10 : ℕ) : ℤ) ≤ 0
    simp only [Int.tmod]
    exact Int.neg_nonpos_of_nonneg (Int.ofNat_nonneg _)

theorem spec_frame_closed (p : TxParams) (i : ℕ) :
    spec_frame p i = (frame_closed i, sched_closed p i) := by
  induction i with
  | zero => simp [spec_frame, frame_closed, sched_closed]
  | succ n ih =>
    rw [spec_frame, ih, sched_closed_succ]
    unfold frame_closed
    by_cases ha : n % 10 = 9
    · have hb : (n + 1) % 10 = 0 := by omega
      have hc : ¬ n % 10 = 0 := by omega
      simp [ha, hb, hc]
    · by_cases hb : (n + 1) % 10 = 9
      · have hc : ¬ (n + 1) % 10 = 0 := by omega
        by_cases hd : n % 10 = 0 <;> simp [ha, hb, hc, hd]
      · have hc : ¬ (n + 1) % 10 = 0 := by omega
        by_cases hd : n % 10 = 0 <;> simp [ha, hb, hc, hd]

/-- The metadata of the send of cycle `i`, while `tx_packet_count` has not
wrapped. -/
theorem tx_send_md_closed (p : TxParams) (i : ℕ) (hi : i < 2 ^ 31) :
    (tx_send_md p i).start_of_burst = (frame_flags (frame_closed i)).1 ∧
      (tx_send_md p i).end_of_burst = (frame_flags (frame_closed i)).2 ∧
      (tx_send_md p i).time_spec = sched_closed p i := by
  obtain ⟨hc, hf, ht, h0⟩ := tx_state_inv p i hi
  unfold tx_send_md
  by_cases hi0 : i = 0
  · subst hi0
    obtain ⟨ha, hb⟩ := h0 rfl
    rw [tx_blocks_md_zero p _ (by simpa using hc)]
    simp [ha, hb, frame_closed, frame_flags, ht]
  · have hcn : (tx_state p i).tx_packet_count ≠ 0 := by
      rw [hc]; exact_mod_cast hi0
    obtain ⟨m, rfl⟩ : ∃ m, i = m + 1 := ⟨i - 1, by omega⟩
    simp only [Nat.add_sub_cancel] at ht
    rw [sched_closed_succ]
    unfold flag_closed at hf
    unfold frame_closed
    by_cases ha : (m + 1) % 10 = 9
    · rw [if_pos ha] at hf
      have hb : ¬ (m + 1) % 10 = 0 := by omega
      rw [tx_blocks_md_three p _ hcn hf]
      simp [ha, hb, ht, tx_timespec_tx_tdd_eq, frame_flags]
    · rw [if_neg ha] at hf
      by_cases hb : (m + 1) % 10 = 0
      · rw [if_pos ⟨hb, by omega⟩] at hf
        rw [tx_blocks_md_two p _ hcn hf]
        simp [hb, ht, tx_timespec_rx_tdd_eq, frame_flags]
      · rw [if_neg (fun h => hb h.1)] at hf
        rw [tx_blocks_md_one p _ hcn hf]
        simp [ha, hb, ht, tx_timespec_tx_tdd_eq, frame_flags]


theorem tx_send_md_eq (p : TxParams) (i : ℕ) :
    tx_send_md p i = (tx_blocks p (tx_state p i)).tx_md := rfl

/-- One cycle entered with a negative count and `flag = 1`: the test
`tx_packet_count%10 == 9` is false and the cycle is a continuing one. -/
theorem tx_cycle_negative (p : TxParams) (s : TxState) (c : ℤ)
    (hc : s.tx_packet_count = c) (hlo : -2147483648 ≤ c) (hhi : c < 0) (hf : s.flag = 1) :
    (tx_cycle p s).tx_packet_count = c + 1 ∧ (tx_cycle p s).flag = 1 ∧
      (tx_cycle p s).tx_md.time_spec = s.tx_md.time_spec + tx_timespec_tx_tdd p := by
  have hcn : s.tx_packet_count ≠ 0 := by rw [hc]; omega
  have hw : int_wrap (c + 1) = c + 1 := by
    unfold int_wrap; norm_num; omega
  have ht9 : ¬ Int.tmod (c + 1) 10 = 9 := by
    have := tmod_ten_nonpos (c + 1) (by omega)
    omega
  refine ⟨?_, ?_, ?_⟩
  · rw [tx_cycle_count, hc, hw]
  · rw [tx_cycle_flag, hc, hw, if_neg ht9, tx_blocks_flag, hf]; simp
  · rw [tx_cycle_md, tx_blocks_md_one p _ hcn hf]

/-- The cycle in which `tx_packet_count` reaches `INT_MAX + 1` and wraps. -/
theorem tx_cycle_overflow (p : TxParams) (s : TxState)
    (hc : s.tx_packet_count = 2147483647) (hf : s.flag = 1) :
    (tx_cycle p s).tx_packet_count = -2147483648 ∧ (tx_cycle p s).flag = 1 := by
  refine ⟨?_, ?_⟩
  · rw [tx_cycle_count, hc]; decide
  · rw [tx_cycle_flag, hc, tx_blocks_flag, hc, hf]; decide

/-- Once `tx_packet_count` has wrapped to a negative value the test
`tx_packet_count%10 == 9` stays false: every cycle is a continuing one. -/
theorem tx_state_wrapped (p : TxParams) (k : ℕ) (hk : k < 2147483648) :
    (tx_state p (2147483647 + 1 + k)).tx_packet_count = -2147483648 + (k : ℤ) ∧
      (tx_state p (2147483647 + 1 + k)).flag = 1 ∧
      (tx_state p (2147483647 + 1 + k)).tx_md.time_spec =
        sched_closed p 2147483647 + (k : ℚ) * tx_timespec_tx_tdd p := by
  induction k with
  | zero =>
    have h31 : 2147483647 < 2 ^ 31 := by norm_num
    obtain ⟨hc, hf, -, -⟩ := tx_state_inv p 2147483647 h31
    obtain ⟨-, -, hs⟩ := tx_send_md_closed p 2147483647 h31
    have hf1 : (tx_state p 2147483647).flag = 1 := by rw [hf]; decide
    have hc1 : (tx_state p 2147483647).tx_packet_count = 2147483647 := by rw [hc]; rfl
    obtain ⟨h1, h2⟩ := tx_cycle_overflow p _ hc1 hf1
    rw [Nat.add_zero, tx_state_succ]
    refine ⟨?_, h2, ?_⟩
    · rw [h1, Nat.cast_zero, add_zero]
    · rw [tx_cycle_md, ← tx_send_md_eq, hs, Nat.cast_zero, zero_mul, add_zero]
  | succ n ih =>
    obtain ⟨hc, hf, ht⟩ := ih (by omega)
    obtain ⟨h1, h2, h3⟩ :=
      tx_cycle_negative p _ (-2147483648 + (n : ℤ)) hc (by omega) (by omega) hf
    rw [← Nat.add_assoc, tx_state_succ]
    refine ⟨?_, h2, ?_⟩
    · rw [h1]; push_cast; ring
    · rw [h3, ht]; push_cast; ring

/-- After the wrap every send is a continuing one, one transmit window after
the previous one. -/
theorem tx_send_md_wrapped (p : TxParams) (k : ℕ) (hk : k < 2147483648) :
    (tx_send_md p (2147483647 + 1 + k)).start_of_burst = false ∧
      (tx_send_md p (2147483647 + 1 + k)).end_of_burst = false ∧
      (tx_send_md p (2147483647 + 1 + k)).time_spec =
        sched_closed p 2147483647 + ((k : ℚ) + 1) * tx_timespec_tx_tdd p := by
  obtain ⟨hc, hf, ht⟩ := tx_state_wrapped p k hk
  have hcn : (tx_state p (2147483647 + 1 + k)).tx_packet_count ≠ 0 := by rw [hc]; omega
  rw [tx_send_md_eq, tx_blocks_md_one p _ hcn hf]
  refine ⟨rfl, rfl, ?_⟩
  show (tx_state p (2147483647 + 1 + k)).tx_md.time_spec + tx_timespec_tx_tdd p = _
  rw [ht]; ring

theorem time_spec_ticks_nonneg (n : ℕ) (rate : ℚ) (h : 0 < rate) :
    0 ≤ time_spec_ticks 0 n rate := by
  unfold time_spec_ticks
  have : (0 : ℚ) ≤ (n : ℚ) / rate := div_nonneg (Nat.cast_nonneg n) h.le
  simpa using this

theorem tx_blocks_time_le (p : TxParams) (s : TxState) (h : 0 < p.rate) :
    s.tx_md.time_spec ≤ (tx_blocks p s).tx_md.time_spec := by
  have htx := time_spec_ticks_nonneg p.tdd_tx_samps p.rate h
  have hrx := time_spec_ticks_nonneg p.tdd_rx_samps p.rate h
  have h1 : s.tx_md.time_spec ≤ (block_continue p s).tx_md.time_spec := by
    unfold block_continue
    split_ifs
    · simpa [tx_timespec_tx_tdd] using htx
    · exact le_refl _
  have h2 : (block_continue p s).tx_md.time_spec ≤
      (block_start p (block_continue p s)).tx_md.time_spec := by
    generalize block_continue p s = s1
    unfold block_start
    split_ifs
    · simpa [tx_timespec_rx_tdd] using hrx
    · exact le_refl _
  have h3 : (block_start p (block_continue p s)).tx_md.time_spec ≤
      (tx_blocks p s).tx_md.time_spec := by
    unfold tx_blocks
    generalize block_start p (block_continue p s) = s2
    unfold block_end
    split_ifs
    · simpa [tx_timespec_tx_tdd] using htx
    · exact le_refl _
  exact le_trans h1 (le_trans h2 h3)

/-! ## The trace of `transmit_worker` -/

theorem sends_of_tx_calls (p : TxParams) (s : TxState) (n : ℕ) (rest : List Event) :
    sends_of (tx_calls p s n ++ rest) = s.tx_md :: sends_of rest := by
  unfold tx_calls
  split_ifs <;> simp [sends_of]

/-- The sends of a run of the loop are those of the successive cycles. -/
theorem sends_of_tx_loop_get (p : TxParams) (inputs : List TxInput) :
    ∀ (s : TxState) (i : ℕ) (md : tx_metadata_t),
      (sends_of (tx_loop p s inputs))[i]? = some md →
        md = (tx_blocks p ((tx_cycle p)^[i] s)).tx_md := by
  induction inputs with
  | nil => intro s i md h; simp [tx_loop, sends_of] at h
  | cons inp inputs ih =>
    intro s i md h
    unfold tx_loop at h
    by_cases hs : inp.stop = true
    · simp [hs, sends_of] at h
    · rw [if_neg hs] at h
      have e : sends_of (Event.check_stop false ::
          (tx_calls p (tx_blocks p s) inp.num_tx_samps ++ tx_loop p (tx_cycle p s) inputs)) =
          sends_of (tx_calls p (tx_blocks p s) inp.num_tx_samps ++
            tx_loop p (tx_cycle p s) inputs) := by
        simp [sends_of]
      rw [e, sends_of_tx_calls] at h
      cases i with
      | zero => simpa using h.symm
      | succ j =>
        rw [List.getElem?_cons_succ] at h
        rw [Function.iterate_succ_apply]
        exact ih (tx_cycle p s) j md h

/-- The `i`-th send of a run of `transmit_worker` is the send of cycle `i`. -/
theorem sends_of_transmit_worker_get (p : TxParams) (inputs : List TxInput) (i : ℕ)
    (md : tx_metadata_t) (h : (sends_of (transmit_worker p inputs))[i]? = some md) :
    md = tx_send_md p i :=
  sends_of_tx_loop_get p inputs (tx_init p) i md h

/-- A run that never finds the stop flag set makes one send per input. -/
theorem sends_of_tx_loop_running (p : TxParams) (inputs : List TxInput) :
    ∀ (s : TxState), (∀ inp ∈ inputs, inp.stop = false) →
      sends_of (tx_loop p s inputs) =
        (List.range inputs.length).map (fun i => (tx_blocks p ((tx_cycle p)^[i] s)).tx_md) := by
  induction inputs with
  | nil => intro s _; simp [tx_loop, sends_of]
  | cons inp inputs ih =>
    intro s h
    have hs : inp.stop = false := h inp (List.mem_cons_self _ _)
    have ht : ∀ x ∈ inputs, x.stop = false := fun x hx => h x (List.mem_cons_of_mem _ hx)
    unfold tx_loop
    rw [hs]
    have e : sends_of (Event.check_stop false ::
        (tx_calls p (tx_blocks p s) inp.num_tx_samps ++ tx_loop p (tx_cycle p s) inputs)) =
        sends_of (tx_calls p (tx_blocks p s) inp.num_tx_samps ++
          tx_loop p (tx_cycle p s) inputs) := by
      simp [sends_of]
    simp only [Bool.false_eq_true, if_false]
    rw [e, sends_of_tx_calls, ih (tx_cycle p s) ht, List.length_cons, List.range_succ_eq_map,
      List.map_cons, List.map_map]
    rfl

theorem sends_of_transmit_worker_running (p : TxParams) (inputs : List TxInput)
    (h : ∀ inp ∈ inputs, inp.stop = false) :
    sends_of (transmit_worker p inputs) = (List.range inputs.length).map (tx_send_md p) :=
  sends_of_tx_loop_running p inputs (tx_init p) h

theorem tx_send_md_succ_time_le (p : TxParams) (h : 0 < p.rate) (i : ℕ) :
    (tx_send_md p i).time_spec ≤ (tx_send_md p (i + 1)).time_spec := by
  rw [tx_send_md_eq p (i + 1), tx_state_succ, tx_send_md_eq p i, ← tx_cycle_md]
  exact tx_blocks_time_le p _ h

theorem blocks_fired_closed (p : TxParams) (i : ℕ) (hi : i < 2 ^ 31) (h1 : 1 ≤ i) :
    (blocks_fired p (tx_state p i)).count true = 1 := by
  obtain ⟨hc, hf, -, -⟩ := tx_state_inv p i hi
  apply blocks_fired_one
  · rw [hc]; exact_mod_cast (by omega : i ≠ 0)
  · rw [hf]; unfold flag_closed
    split_ifs <;> simp

theorem frame_of_closed (p : TxParams) (i : ℕ) (hi : i < 2 ^ 31) :
    frame_of (tx_send_md p i) = some (frame_closed i) := by
  obtain ⟨h1, h2, -⟩ := tx_send_md_closed p i hi
  unfold frame_of
  rw [h1, h2]
  cases frame_closed i <;> rfl


/-! ## Lemmas on traces -/

theorem followed_nil (R : Event → List Event → Prop) : followed R [] := by
  intro pre e post h
  simp at h

theorem followed_cons (R : Event → List Event → Prop) (e : Event) (t : List Event) :
    followed R (e :: t) ↔ R e t ∧ followed R t := by
  constructor
  · intro h
    refine ⟨h [] e t rfl, ?_⟩
    intro pre e1 post ht
    exact h (e :: pre) e1 post (by rw [ht]; rfl)
  · rintro ⟨h1, h2⟩ pre e1 post ht
    cases pre with
    | nil =>
      simp only [List.nil_append, List.cons.injEq] at ht
      obtain ⟨rfl, rfl⟩ := ht
      exact h1
    | cons a pre1 =>
      simp only [List.cons_append, List.cons.injEq] at ht
      exact h2 pre1 e1 post ht.2

/-- A prefix whose events ask nothing of what follows them can be dropped. -/
theorem followed_append (R : Event → List Event → Prop) (l t : List Event)
    (hl : ∀ e ∈ l, ∀ post, R e post) (ht : followed R t) : followed R (l ++ t) := by
  induction l with
  | nil => simpa using ht
  | cons a l ih =>
    rw [List.cons_append, followed_cons]
    exact ⟨hl a (List.mem_cons_self _ _) _,
      ih (fun e he => hl e (List.mem_cons_of_mem _ he))⟩

theorem sends_of_append (l t : List Event) : sends_of (l ++ t) = sends_of l ++ sends_of t := by
  induction l with
  | nil => rfl
  | cons a l ih => cases a <;> simp [sends_of, ih]

/-! ## The loop of tdd_test_v1 -/

theorem v1_loop_followed (p : MainParams) (inputs : List V1Input) :
    ∀ s : V1State, followed (v1_follow p) (v1_loop p s inputs) := by
  induction inputs with
  | nil => intro s; exact followed_nil _
  | cons inp inputs ih =>
    intro s
    unfold v1_loop
    rw [followed_cons, followed_cons]
    refine ⟨trivial, ?_⟩
    by_cases h1 : inp.rx_md.error_code = error_code_t.ERROR_CODE_TIMEOUT
    · simp [h1, v1_follow, followed_cons, followed_nil]
    · by_cases h2 : inp.rx_md.error_code = error_code_t.ERROR_CODE_NONE
      · by_cases h3 : inp.num_rx_samps < p.tdd_rx_samps
        · simp [h2, h3, v1_follow, followed_cons, followed_nil]
        · rw [if_neg h1, if_neg (not_not_intro h2), if_neg h3]
          refine ⟨⟨fun h => absurd h h1, fun _ h => absurd h2 h, fun _ h => absurd h h3,
            fun _ _ => ⟨_, _, _, rfl, rfl⟩⟩, ?_⟩
          rw [followed_cons]
          refine ⟨trivial, ?_⟩
          apply followed_append
          · intro e he post
            split_ifs at he
            · simp only [List.mem_singleton] at he
              subst he; trivial
            · simp at he
          · by_cases h4 : inp.stop = true
            · simp [h4, v1_follow, followed_cons, followed_nil]
            · rw [if_neg h4, followed_cons]
              exact ⟨trivial, ih _⟩
      · simp [h1, h2, v1_follow, followed_cons, followed_nil]


/-! ## The loop of tdd_test_v2 -/

theorem v2_window_full (p : MainParams) (num : ℕ) (timeout : ℚ) (recvs : List RecvInput)
    (h : num = p.tdd_rx_samps) :
    v2_window p num timeout recvs = ([], WindowEnd.left num timeout recvs) := by
  rw [v2_window.eq_def]; simp [h]

theorem v2_window_nil (p : MainParams) (num : ℕ) (timeout : ℚ)
    (h : num ≠ p.tdd_rx_samps) :
    v2_window p num timeout [] = ([], WindowEnd.running) := by
  rw [v2_window.eq_def]; simp [h]

theorem v2_window_timeout (p : MainParams) (num : ℕ) (timeout : ℚ) (r : RecvInput)
    (rest : List RecvInput) (h : num ≠ p.tdd_rx_samps)
    (h1 : r.rx_md.error_code = error_code_t.ERROR_CODE_TIMEOUT) :
    v2_window p num timeout (r :: rest) =
      ([Event.recv (size_sub p.tdd_rx_samps num) timeout r.num_rx_samps r.rx_md,
        Event.log (Message.received_timeout_samples (size_wrap (num + r.num_rx_samps)))],
       WindowEnd.left (size_wrap (num + r.num_rx_samps)) (1 / 10) rest) := by
  rw [v2_window.eq_def]; simp [h, h1]

theorem v2_window_error (p : MainParams) (num : ℕ) (timeout : ℚ) (r : RecvInput)
    (rest : List RecvInput) (h : num ≠ p.tdd_rx_samps)
    (h1 : r.rx_md.error_code ≠ error_code_t.ERROR_CODE_TIMEOUT)
    (h2 : r.rx_md.error_code ≠ error_code_t.ERROR_CODE_NONE) :
    v2_window p num timeout (r :: rest) =
      ([Event.recv (size_sub p.tdd_rx_samps num) timeout r.num_rx_samps r.rx_md,
        Event.raise "Receiver error"], WindowEnd.raised) := by
  rw [v2_window.eq_def]; simp [h, h1, h2]

theorem v2_window_none (p : MainParams) (num : ℕ) (timeout : ℚ) (r : RecvInput)
    (rest : List RecvInput) (h : num ≠ p.tdd_rx_samps)
    (h2 : r.rx_md.error_code = error_code_t.ERROR_CODE_NONE) :
    v2_window p num timeout (r :: rest) =
      (Event.recv (size_sub p.tdd_rx_samps num) timeout r.num_rx_samps r.rx_md ::
        (v2_window p (size_wrap (num + r.num_rx_samps)) (1 / 10) rest).1,
       (v2_window p (size_wrap (num + r.num_rx_samps)) (1 / 10) rest).2) := by
  rw [v2_window.eq_def]; simp [h, h2]

theorem v2_leave_cons (p : MainParams) (k : ℚ → List RecvInput → List Event) (e : Event)
    (w : List Event × WindowEnd) :
    v2_leave p k (e :: w.1, w.2) = e :: v2_leave p k w := by
  rcases w with ⟨ev, w⟩
  cases w <;> simp [v2_leave]

/-- No throw follows a clean `recv` directly. -/
theorem v2_leave_head (p : MainParams) (k : ℚ → List RecvInput → List Event)
    (hk : ∀ t rest what post1, k t rest ≠ Event.raise what :: post1)
    (recvs : List RecvInput) (num : ℕ) (timeout : ℚ) (what : String) (post1 : List Event) :
    v2_leave p k (v2_window p num timeout recvs) ≠ Event.raise what :: post1 := by
  by_cases hfull : num = p.tdd_rx_samps
  · rw [v2_window_full p num timeout recvs hfull]
    simp only [v2_leave, List.nil_append]
    split_ifs
    · simp
    · simpa using hk timeout recvs what post1
  · rcases recvs with _ | ⟨r, rest⟩
    · rw [v2_window_nil p num timeout hfull]; simp [v2_leave]
    · by_cases h1 : r.rx_md.error_code = error_code_t.ERROR_CODE_TIMEOUT
      · rw [v2_window_timeout p num timeout r rest hfull h1]; simp [v2_leave]
      · by_cases h2 : r.rx_md.error_code = error_code_t.ERROR_CODE_NONE
        · rw [v2_window_none p num timeout r rest hfull h2, v2_leave_cons]; simp
        · rw [v2_window_error p num timeout r rest hfull h1 h2]; simp [v2_leave]

theorem v2_report_followed (p : MainParams) (num : ℕ) (t : List Event)
    (ht : followed (v2_follow p) t) :
    followed (v2_follow p)
      ((if num < p.tdd_rx_samps then [Event.log (Message.receive_timeout_before_all num)]
        else []) ++ t) := by
  split_ifs
  · simp only [List.cons_append, List.nil_append, followed_cons]
    exact ⟨trivial, ht⟩
  · simpa using ht

theorem v2_leave_followed (p : MainParams) (k : ℚ → List RecvInput → List Event)
    (hk : ∀ t rest, followed (v2_follow p) (k t rest))
    (hh : ∀ t rest what post1, k t rest ≠ Event.raise what :: post1)
    (recvs : List RecvInput) :
    ∀ (num : ℕ) (timeout : ℚ),
      followed (v2_follow p) (v2_leave p k (v2_window p num timeout recvs)) := by
  induction recvs with
  | nil =>
    intro num timeout
    by_cases hfull : num = p.tdd_rx_samps
    · rw [v2_window_full p num timeout [] hfull]
      simpa [v2_leave] using v2_report_followed p num _ (hk timeout [])
    · rw [v2_window_nil p num timeout hfull]
      exact followed_nil _
  | cons r rest ih =>
    intro num timeout
    by_cases hfull : num = p.tdd_rx_samps
    · rw [v2_window_full p num timeout _ hfull]
      simpa [v2_leave] using v2_report_followed p num _ (hk timeout (r :: rest))
    · by_cases h1 : r.rx_md.error_code = error_code_t.ERROR_CODE_TIMEOUT
      · rw [v2_window_timeout p num timeout r rest hfull h1]
        simp only [v2_leave, List.cons_append, List.nil_append, followed_cons]
        refine ⟨⟨fun _ => ⟨_, _, rfl⟩, fun h => absurd h1 h, fun h => ?_⟩, trivial, ?_⟩
        · rw [h1] at h; exact absurd h (by decide)
        · exact v2_report_followed p _ _ (hk _ rest)
      · by_cases h2 : r.rx_md.error_code = error_code_t.ERROR_CODE_NONE
        · rw [v2_window_none p num timeout r rest hfull h2, v2_leave_cons, followed_cons]
          refine ⟨⟨fun h => absurd h h1, fun _ h => absurd h2 h, fun _ => ?_⟩, ih _ _⟩
          exact v2_leave_head p k hh rest _ _
        · rw [v2_window_error p num timeout r rest hfull h1 h2]
          simp only [v2_leave, followed_cons]
          exact ⟨⟨fun h => absurd h h1, fun _ _ => rfl, fun h => absurd h h2⟩,
            rfl, followed_nil _⟩

theorem v2_loop_followed (p : MainParams) (stops : List Bool) :
    ∀ (timeout : ℚ) (recvs : List RecvInput),
      followed (v2_follow p) (v2_loop p stops timeout recvs) := by
  induction stops with
  | nil =>
    intro timeout recvs
    rw [v2_loop, v2_cycle]
    exact v2_leave_followed p _ (fun _ _ => followed_nil _) (fun _ _ _ _ => by simp) recvs 0
      timeout
  | cons b stops ih =>
    intro timeout recvs
    cases b
    · rw [v2_loop, v2_cycle]
      refine v2_leave_followed p _ (fun t rest => ?_) (fun _ _ _ _ => by simp) recvs 0 timeout
      rw [followed_cons]
      exact ⟨trivial, ih t rest⟩
    · rw [v2_loop, v2_cycle]
      refine v2_leave_followed p _ (fun t rest => ?_) (fun _ _ _ _ => by simp) recvs 0 timeout
      simp [followed_cons, followed_nil, v2_follow, v2_epilogue]


/-! ## Channel detection and `main` -/

theorem detect_from_none_iff (tx_num rx_num : ℕ) (tune : Bool) (chans : List ℕ) :
    ∀ (ch : ℕ) (acc : List ℕ),
      (detect_from tx_num rx_num tune ch acc chans).2 = none ↔
        ∃ c ∈ chans, c ≥ tx_num ∨ c ≥ rx_num := by
  induction chans with
  | nil => intro ch acc; simp [detect_from]
  | cons c chans ih =>
    intro ch acc
    rw [detect_from]
    by_cases h : c ≥ tx_num ∨ c ≥ rx_num
    · rw [if_pos h]
      exact ⟨fun _ => ⟨c, List.mem_cons_self _ _, h⟩, fun _ => rfl⟩
    · rw [if_neg h]
      simp only [ih, List.mem_cons, exists_eq_or_imp, h, false_or]

theorem detect_from_some (tx_num rx_num : ℕ) (tune : Bool) (chans : List ℕ) :
    ∀ (ch : ℕ) (acc : List ℕ), (∀ c ∈ chans, c < tx_num ∧ c < rx_num) →
      (detect_from tx_num rx_num tune ch acc chans).2 = some (acc ++ chans) := by
  induction chans with
  | nil => intro ch acc _; simp [detect_from]
  | cons c chans ih =>
    intro ch acc h
    have hc := h c (List.mem_cons_self _ _)
    rw [detect_from, if_neg (by omega)]
    simp only
    rw [ih (ch + 1) (acc ++ [c]) (fun x hx => h x (List.mem_cons_of_mem _ hx))]
    simp

/-- The events of channel detection: tuning calls (only when `tune`), then the
throw when a channel is rejected. -/
theorem detect_from_trace (tx_num rx_num : ℕ) (tune : Bool) (chans : List ℕ) :
    ∀ (ch : ℕ) (acc : List ℕ), ∃ pre : List Event,
      (∀ e ∈ pre, ∃ c, e = Event.set_rx_freq c ∨ e = Event.set_tx_freq c) ∧
      (tune = false → pre = []) ∧
      ((detect_from tx_num rx_num tune ch acc chans).2 = none →
        (detect_from tx_num rx_num tune ch acc chans).1 =
          pre ++ [Event.raise "Invalid channel(s) specified."]) ∧
      (∀ l, (detect_from tx_num rx_num tune ch acc chans).2 = some l →
        (detect_from tx_num rx_num tune ch acc chans).1 = pre) := by
  induction chans with
  | nil =>
    intro ch acc
    exact ⟨[], by simp, fun _ => rfl, by simp [detect_from], by simp [detect_from]⟩
  | cons c chans ih =>
    intro ch acc
    rw [detect_from]
    by_cases h : c ≥ tx_num ∨ c ≥ rx_num
    · rw [if_pos h]
      exact ⟨[], by simp, fun _ => rfl, by simp, by simp⟩
    · rw [if_neg h]
      obtain ⟨pre, h1, h2, h3, h4⟩ := ih (ch + 1) (acc ++ [c])
      refine ⟨(if tune then [Event.set_rx_freq ch, Event.set_tx_freq ch] else []) ++ pre,
        ?_, ?_, ?_, ?_⟩
      · intro e he
        rw [List.mem_append] at he
        rcases he with he | he
        · split_ifs at he
          · simp only [List.mem_cons, List.mem_singleton, List.not_mem_nil, or_false] at he
            rcases he with rfl | rfl
            · exact ⟨ch, Or.inl rfl⟩
            · exact ⟨ch, Or.inr rfl⟩
          · simp at he
        · exact h1 e he
      · intro ht; simp [ht, h2 ht]
      · intro hn; simp only at hn ⊢; rw [h3 hn, List.append_assoc]
      · intro l hl; simp only at hl ⊢; rw [h4 l hl]

theorem v1_main_rejected (p : MainParams) (inputs : List V1Input)
    (h : (detect_channels p false).2 = none) :
    v1_main p inputs = [Event.raise "Invalid channel(s) specified."] := by
  obtain ⟨pre, -, h2, h3, -⟩ :=
    detect_from_trace p.tx_num_channels p.rx_num_channels false p.chans 0 []
  have h5 := h3 h
  rw [h2 rfl] at h5
  unfold v1_main
  rcases hd : detect_channels p false with ⟨ev, r⟩
  rw [hd] at h
  simp only at h
  subst h
  have : ev = (detect_channels p false).1 := by rw [hd]
  simpa [this] using h5

theorem v1_main_accepted (p : MainParams) (inputs : List V1Input) (l : List ℕ)
    (h : (detect_channels p false).2 = some l) :
    v1_main p inputs = v1_setup p ++ v1_loop p (v1_init p) inputs := by
  obtain ⟨pre, -, h2, -, h4⟩ :=
    detect_from_trace p.tx_num_channels p.rx_num_channels false p.chans 0 []
  have h5 := h4 l h
  rw [h2 rfl] at h5
  unfold v1_main
  rcases hd : detect_channels p false with ⟨ev, r⟩
  rw [hd] at h
  simp only at h
  subst h
  have : ev = (detect_channels p false).1 := by rw [hd]
  have hev : ev = [] := by rw [this]; exact h5
  simp [hev]

theorem v2_main_rejected (p : MainParams) (stops : List Bool) (recvs : List RecvInput)
    (h : (detect_channels p true).2 = none) :
    ∃ pre : List Event,
      (∀ e ∈ pre, ∃ c, e = Event.set_rx_freq c ∨ e = Event.set_tx_freq c) ∧
      v2_main p stops recvs = pre ++ [Event.raise "Invalid channel(s) specified."] := by
  obtain ⟨pre, h1, -, h3, -⟩ :=
    detect_from_trace p.tx_num_channels p.rx_num_channels true p.chans 0 []
  refine ⟨pre, h1, ?_⟩
  have h5 := h3 h
  unfold v2_main
  rcases hd : detect_channels p true with ⟨ev, r⟩
  rw [hd] at h
  simp only at h
  subst h
  have : ev = (detect_channels p true).1 := by rw [hd]
  simpa [this] using h5

theorem v2_main_accepted (p : MainParams) (stops : List Bool) (recvs : List RecvInput)
    (l : List ℕ) (h : (detect_channels p true).2 = some l) :
    ∃ pre : List Event,
      (∀ e ∈ pre, ∃ c, e = Event.set_rx_freq c ∨ e = Event.set_tx_freq c) ∧
      v2_main p stops recvs =
        pre ++ (v2_setup p l ++ v2_loop p stops (p.seconds_in_future + 1 / 10) recvs) := by
  obtain ⟨pre, h1, -, -, h4⟩ :=
    detect_from_trace p.tx_num_channels p.rx_num_channels true p.chans 0 []
  refine ⟨pre, h1, ?_⟩
  have h5 := h4 l h
  unfold v2_main
  rcases hd : detect_channels p true with ⟨ev, r⟩
  rw [hd] at h
  simp only at h
  subst h
  have : ev = (detect_channels p true).1 := by rw [hd]
  have hev : ev = pre := by rw [this]; exact h5
  simp [hev]

theorem v1_main_followed (p : MainParams) (inputs : List V1Input) :
    followed (v1_follow p) (v1_main p inputs) := by
  rcases hd : (detect_channels p false).2 with _ | l
  · rw [v1_main_rejected p inputs hd]
    simp [followed_cons, followed_nil, v1_follow]
  · rw [v1_main_accepted p inputs l hd]
    apply followed_append
    · intro e he post
      simp only [v1_setup, List.mem_cons, List.mem_singleton, List.not_mem_nil,
        or_false] at he
      rcases he with rfl | rfl | rfl | rfl | rfl <;> trivial
    · exact v1_loop_followed p inputs _

theorem v2_main_followed (p : MainParams) (stops : List Bool) (recvs : List RecvInput) :
    followed (v2_follow p) (v2_main p stops recvs) := by
  have hfreq : ∀ pre : List Event,
      (∀ e ∈ pre, ∃ c, e = Event.set_rx_freq c ∨ e = Event.set_tx_freq c) →
      ∀ e ∈ pre, ∀ post, v2_follow p e post := by
    intro pre h e he post
    obtain ⟨c, rfl | rfl⟩ := h e he <;> trivial
  rcases hd : (detect_channels p true).2 with _ | l
  · obtain ⟨pre, h1, h2⟩ := v2_main_rejected p stops recvs hd
    rw [h2]
    apply followed_append _ _ _ (hfreq pre h1)
    simp [followed_cons, followed_nil, v2_follow]
  · obtain ⟨pre, h1, h2⟩ := v2_main_accepted p stops recvs l hd
    rw [h2]
    apply followed_append _ _ _ (hfreq pre h1)
    apply followed_append
    · intro e he post
      simp only [v2_setup, List.mem_cons, List.mem_singleton, List.not_mem_nil,
        or_false] at he
      rcases he with rfl | rfl | rfl | rfl | rfl | rfl | rfl | rfl <;> trivial
    · exact v2_loop_followed p stops _ recvs

theorem tx_loop_followed (p : TxParams) (inputs : List TxInput) :
    ∀ s : TxState, followed tx_follow (tx_loop p s inputs) := by
  induction inputs with
  | nil => intro s; exact followed_nil _
  | cons inp inputs ih =>
    intro s
    unfold tx_loop
    by_cases h : inp.stop = true
    · simp [h, followed_cons, followed_nil, tx_follow]
    · rw [if_neg h, followed_cons]
      refine ⟨trivial, ?_⟩
      apply followed_append
      · intro e he post
        unfold tx_calls at he
        rw [List.mem_append] at he
        rcases he with he | he
        · simp only [List.mem_cons, List.mem_singleton, List.not_mem_nil, or_false] at he
          rcases he with rfl | rfl | rfl | rfl <;> trivial
        · split_ifs at he
          · simp only [List.mem_singleton] at he
            subst he; trivial
          · simp at he
      · exact ih _


/-! ## Claims on `transmit_worker` -/

/-- C1 (amended).  While the 32-bit `tx_packet_count` has not wrapped (cycle
index `i < 2^31`), the `i`-th send of any run of `transmit_worker` carries the
flags and the time of the four ordered framing rules of the spec
(`spec_frame`), and for `i ≥ 1` exactly one of the three flag blocks fires in
cycle `i`. -/
theorem transmit_worker_framing_rules (p : TxParams) (inputs : List TxInput) (i : ℕ)
    (md : tx_metadata_t) (hi : i < 2 ^ 31)
    (h : (sends_of (transmit_worker p inputs))[i]? = some md) :
    (md.start_of_burst, md.end_of_burst) = frame_flags (spec_frame p i).1 ∧
      md.time_spec = (spec_frame p i).2 ∧
      (1 ≤ i → (blocks_fired p (tx_state p i)).count true = 1) := by
  have hmd := sends_of_transmit_worker_get p inputs i md h
  obtain ⟨h1, h2, h3⟩ := tx_send_md_closed p i hi
  rw [spec_frame_closed, hmd]
  refine ⟨?_, h3, fun h => blocks_fired_closed p i hi h⟩
  rw [h1, h2]

/-- C1, witness: cycle 10 of a run of twelve cycles with the default
parameters. -/
theorem transmit_worker_framing_rules_witness :
    (10 < 2 ^ 31 ∧
      (sends_of (transmit_worker tx_params_default
        (List.replicate 12 ⟨false, 10000⟩)))[10]? = some (tx_send_md tx_params_default 10)) ∧
    ((tx_send_md tx_params_default 10).start_of_burst,
        (tx_send_md tx_params_default 10).end_of_burst) =
        frame_flags (spec_frame tx_params_default 10).1 ∧
      (tx_send_md tx_params_default 10).time_spec = (spec_frame tx_params_default 10).2 ∧
      (1 ≤ 10 → (blocks_fired tx_params_default (tx_state tx_params_default 10)).count true
        = 1) := by
  have hrun : (sends_of (transmit_worker tx_params_default
      (List.replicate 12 ⟨false, 10000⟩)))[10]? = some (tx_send_md tx_params_default 10) := by
    rw [sends_of_transmit_worker_running _ _ (by simp)]
    simp
  exact ⟨⟨by norm_num, hrun⟩,
    transmit_worker_framing_rules tx_params_default _ 10 _ (by norm_num) hrun⟩

/-- C1, counterexample.  In a run of 2147483650 cycles the send of cycle
2147483649 is a continuing one (both flags false) although
`2147483649 mod 10 = 9` and the rules make it ENDING: `tx_packet_count`, a
32-bit `int`, has wrapped to a negative value and `tx_packet_count%10 == 9` is
false. -/
theorem transmit_worker_framing_rules_wrap :
    (sends_of (transmit_worker tx_params_unit
        (List.replicate 2147483650 ⟨false, 1⟩)))[2147483649]? =
        some (tx_send_md tx_params_unit 2147483649) ∧
      ((tx_send_md tx_params_unit 2147483649).start_of_burst,
        (tx_send_md tx_params_unit 2147483649).end_of_burst) = (false, false) ∧
      frame_flags (spec_frame tx_params_unit 2147483649).1 = (false, true) := by
  refine ⟨?_, ?_, ?_⟩
  · rw [sends_of_transmit_worker_running _ _
      (fun inp h => by rw [List.eq_of_mem_replicate h]),
      List.length_replicate, List.getElem?_map, List.getElem?_range (by norm_num)]
    rfl
  · have e : (2147483649 : ℕ) = 2147483647 + 1 + 1 := by norm_num
    obtain ⟨h1, h2, -⟩ := tx_send_md_wrapped tx_params_unit 1 (by norm_num)
    rw [e, h1, h2]
  · rw [spec_frame_closed]
    decide

/-- C2.  For every start time, every sample counts and every rate `> 0`, in
every run of `transmit_worker` the time_spec of the send of cycle `i + 1` is
greater than or equal to the time_spec of the send of cycle `i`. -/
theorem transmit_times_nondecreasing (p : TxParams) (hr : 0 < p.rate)
    (inputs : List TxInput) (i : ℕ) (md1 md2 : tx_metadata_t)
    (h1 : (sends_of (transmit_worker p inputs))[i]? = some md1)
    (h2 : (sends_of (transmit_worker p inputs))[i + 1]? = some md2) :
    md1.time_spec ≤ md2.time_spec := by
  rw [sends_of_transmit_worker_get p inputs i md1 h1,
    sends_of_transmit_worker_get p inputs (i + 1) md2 h2]
  exact tx_send_md_succ_time_le p hr i

/-- C2, witness: cycles 9 and 10 of a run of twelve cycles with the default
parameters. -/
theorem transmit_times_nondecreasing_witness :
    (0 < tx_params_default.rate ∧
      (sends_of (transmit_worker tx_params_default
        (List.replicate 12 ⟨false, 10000⟩)))[9]? = some (tx_send_md tx_params_default 9) ∧
      (sends_of (transmit_worker tx_params_default
        (List.replicate 12 ⟨false, 10000⟩)))[9 + 1]? =
          some (tx_send_md tx_params_default 10)) ∧
    (tx_send_md tx_params_default 9).time_spec ≤
      (tx_send_md tx_params_default 10).time_spec := by
  have hrate : 0 < tx_params_default.rate := by norm_num [tx_params_default]
  have h9 : (sends_of (transmit_worker tx_params_default
      (List.replicate 12 ⟨false, 10000⟩)))[9]? = some (tx_send_md tx_params_default 9) := by
    rw [sends_of_transmit_worker_running _ _ (by simp)]
    simp
  have h10 : (sends_of (transmit_worker tx_params_default
      (List.replicate 12 ⟨false, 10000⟩)))[9 + 1]? =
        some (tx_send_md tx_params_default 10) := by
    rw [sends_of_transmit_worker_running _ _ (by simp)]
    simp
  exact ⟨⟨hrate, h9, h10⟩,
    transmit_times_nondecreasing tx_params_default hrate _ 9 _ _ h9 h10⟩


theorem frame_closed_after_ending (i : ℕ)
    (h : frame_closed i = BurstFrameState.ENDING) :
    frame_closed (i + 1) = BurstFrameState.STARTING := by
  unfold frame_closed at h ⊢
  split_ifs at h ⊢ <;> first | rfl | omega

theorem frame_closed_continuing (i : ℕ) (h0 : i ≠ 0)
    (h1 : frame_closed i ≠ BurstFrameState.ENDING)
    (h2 : frame_closed (i - 1) ≠ BurstFrameState.ENDING) :
    frame_closed i = BurstFrameState.CONTINUING := by
  unfold frame_closed at h1 h2 ⊢
  split_ifs at h1 h2 ⊢ <;> first | rfl | omega | contradiction

/-- C3.  With the cadence period 10 of `transmit_worker`, a run of 30 cycles
from session start sends three periods STARTING, 8 × CONTINUING, ENDING: it
has exactly 3 ENDING cycles (9, 19 and 29), the cycle after each ENDING cycle
is STARTING, the first cycle is STARTING and every other cycle is
CONTINUING. -/
theorem burst_framing_thirty_cycles (p : TxParams) (inputs : List TxInput)
    (hlen : inputs.length = 30) (hrun : ∀ inp ∈ inputs, inp.stop = false) :
    (sends_of (transmit_worker p inputs)).map frame_of =
        cadence_period ++ cadence_period ++ cadence_period ∧
      ((sends_of (transmit_worker p inputs)).map frame_of).count
        (some BurstFrameState.ENDING) = 3 ∧
      (sends_of (transmit_worker p inputs)) = (List.range 30).map (tx_send_md p) ∧
      (∀ i, i < 30 → frame_of (tx_send_md p i) = some BurstFrameState.ENDING →
        frame_of (tx_send_md p (i + 1)) = some BurstFrameState.STARTING) ∧
      frame_of (tx_send_md p 0) = some BurstFrameState.STARTING ∧
      (∀ i, i < 30 → i ≠ 0 → frame_of (tx_send_md p i) ≠ some BurstFrameState.ENDING →
        frame_of (tx_send_md p (i - 1)) ≠ some BurstFrameState.ENDING →
        frame_of (tx_send_md p i) = some BurstFrameState.CONTINUING) := by
  have hlt : ∀ i, i < 31 → i < 2 ^ 31 := fun i h => lt_trans h (by norm_num)
  have hs : sends_of (transmit_worker p inputs) = (List.range 30).map (tx_send_md p) := by
    rw [sends_of_transmit_worker_running p inputs hrun, hlen]
  have hf : (sends_of (transmit_worker p inputs)).map frame_of =
      cadence_period ++ cadence_period ++ cadence_period := by
    rw [hs, List.map_map]
    have : (List.range 30).map (frame_of ∘ tx_send_md p) =
        (List.range 30).map (fun i => some (frame_closed i)) := by
      apply List.map_congr_left
      intro i hi
      exact frame_of_closed p i (hlt i (by have := List.mem_range.mp hi; omega))
    rw [this]
    decide
  refine ⟨hf, ?_, hs, ?_, ?_, ?_⟩
  · rw [hf]; decide
  · intro i hi he
    rw [frame_of_closed p i (hlt i (by omega))] at he
    rw [frame_of_closed p (i + 1) (hlt _ (by omega))]
    exact congrArg some (frame_closed_after_ending i (Option.some.inj he))
  · rw [frame_of_closed p 0 (by norm_num)]; rfl
  · intro i hi h0 h1 h2
    rw [frame_of_closed p i (hlt i (by omega))] at h1 ⊢
    rw [frame_of_closed p (i - 1) (hlt _ (by omega))] at h2
    exact congrArg some (frame_closed_continuing i h0
      (fun h => h1 (congrArg some h)) (fun h => h2 (congrArg some h)))

/-- C3, witness: thirty cycles with the default parameters, every send
complete. -/
theorem burst_framing_thirty_cycles_witness :
    ((List.replicate 30 (⟨false, 10000⟩ : TxInput)).length = 30 ∧
      ∀ inp ∈ List.replicate 30 (⟨false, 10000⟩ : TxInput), inp.stop = false) ∧
    ((sends_of (transmit_worker tx_params_default
        (List.replicate 30 ⟨false, 10000⟩))).map frame_of).count
        (some BurstFrameState.ENDING) = 3 :=
  ⟨⟨by simp, fun inp h => by rw [List.eq_of_mem_replicate h]⟩,
    (burst_framing_thirty_cycles tx_params_default (List.replicate 30 ⟨false, 10000⟩)
      (by simp) (fun inp h => by rw [List.eq_of_mem_replicate h])).2.1⟩

/-- C9 (amended).  While the 32-bit `tx_packet_count` has not wrapped (cycle
index `i < 2^31`), the time_spec of the send of cycle `i` in tdd_test_v2 is
`L + tdd_rx_samps/rate + (i - ⌊i/10⌋) * tdd_tx_samps/rate + ⌊i/10⌋ *
tdd_rx_samps/rate`, where `L = seconds_in_future`. -/
theorem transmit_schedule_closed_form (p : MainParams) (_hr : 0 < p.rate)
    (inputs : List TxInput) (i : ℕ) (md : tx_metadata_t) (hi : i < 2 ^ 31)
    (h : (sends_of (transmit_worker (v2_tx_params p) inputs))[i]? = some md) :
    md.time_spec =
      p.seconds_in_future + (p.tdd_rx_samps : ℚ) / p.rate
        + ((i - i / 10 : ℕ) : ℚ) * ((p.tdd_tx_samps : ℚ) / p.rate)
        + ((i / 10 : ℕ) : ℚ) * ((p.tdd_rx_samps : ℚ) / p.rate) := by
  have hmd := sends_of_transmit_worker_get _ inputs i md h
  obtain ⟨-, -, h3⟩ := tx_send_md_closed (v2_tx_params p) i hi
  rw [hmd, h3]
  simp [sched_closed, v2_tx_params, time_spec_secs, time_spec_ticks]


/-- C9, witness: the default command line (rate 6.25e6, 10000-sample RX and TX
windows).  Each per-window delta is exactly 1.6 ms and cycle 625 is scheduled
exactly 1.0 s after cycle 0. -/
theorem transmit_schedule_closed_form_witness :
    (0 < main_params_default.rate ∧ 625 < 2 ^ 31 ∧
      (sends_of (transmit_worker (v2_tx_params main_params_default)
        (List.replicate 626 ⟨false, 10000⟩)))[625]? =
          some (tx_send_md (v2_tx_params main_params_default) 625)) ∧
    (tx_send_md (v2_tx_params main_params_default) 625).time_spec =
      main_params_default.seconds_in_future
        + (main_params_default.tdd_rx_samps : ℚ) / main_params_default.rate
        + ((625 - 625 / 10 : ℕ) : ℚ)
          * ((main_params_default.tdd_tx_samps : ℚ) / main_params_default.rate)
        + ((625 / 10 : ℕ) : ℚ)
          * ((main_params_default.tdd_rx_samps : ℚ) / main_params_default.rate) ∧
    tx_timespec_tx_tdd (v2_tx_params main_params_default) = 16 / 10000 ∧
    tx_timespec_rx_tdd (v2_tx_params main_params_default) = 16 / 10000 ∧
    (tx_send_md (v2_tx_params main_params_default) 625).time_spec =
      (tx_send_md (v2_tx_params main_params_default) 0).time_spec + 1 := by
  have hrate : 0 < main_params_default.rate := by norm_num [main_params_default]
  have hrun : (sends_of (transmit_worker (v2_tx_params main_params_default)
      (List.replicate 626 ⟨false, 10000⟩)))[625]? =
        some (tx_send_md (v2_tx_params main_params_default) 625) := by
    rw [sends_of_transmit_worker_running _ _
      (fun inp h => by rw [List.eq_of_mem_replicate h]),
      List.length_replicate, List.getElem?_map, List.getElem?_range (by norm_num)]
    rfl
  refine ⟨⟨hrate, by norm_num, hrun⟩,
    transmit_schedule_closed_form main_params_default hrate _ 625 _ (by norm_num) hrun,
    ?_, ?_, ?_⟩
  · norm_num [tx_timespec_tx_tdd_eq, v2_tx_params, main_params_default]
  · norm_num [tx_timespec_rx_tdd_eq, v2_tx_params, main_params_default]
  · obtain ⟨-, -, h1⟩ := tx_send_md_closed (v2_tx_params main_params_default) 625 (by norm_num)
    obtain ⟨-, -, h0⟩ := tx_send_md_closed (v2_tx_params main_params_default) 0 (by norm_num)
    rw [h1, h0]
    norm_num [sched_closed, v2_tx_params, main_params_default, time_spec_secs,
      time_spec_ticks]

/-- C9, counterexample.  With a one-sample transmit window, an empty receive
window, rate 1 and no lead time, the send of cycle 2147483650 of a run of
2147483651 cycles is scheduled at 1932735286 s, while the closed form gives
1932735285 s: after `tx_packet_count` has wrapped, cycle 2147483650 adds a
transmit window where the closed form adds a receive window. -/
theorem transmit_schedule_closed_form_wrap :
    (sends_of (transmit_worker (v2_tx_params main_params_unit)
        (List.replicate 2147483651 ⟨false, 1⟩)))[2147483650]? =
        some (tx_send_md (v2_tx_params main_params_unit) 2147483650) ∧
      (tx_send_md (v2_tx_params main_params_unit) 2147483650).time_spec = 1932735286 ∧
      main_params_unit.seconds_in_future
        + (main_params_unit.tdd_rx_samps : ℚ) / main_params_unit.rate
        + ((2147483650 - 2147483650 / 10 : ℕ) : ℚ)
          * ((main_params_unit.tdd_tx_samps : ℚ) / main_params_unit.rate)
        + ((2147483650 / 10 : ℕ) : ℚ)
          * ((main_params_unit.tdd_rx_samps : ℚ) / main_params_unit.rate) = 1932735285 := by
  refine ⟨?_, ?_, ?_⟩
  · rw [sends_of_transmit_worker_running _ _
      (fun inp h => by rw [List.eq_of_mem_replicate h]),
      List.length_replicate, List.getElem?_map, List.getElem?_range (by norm_num)]
    rfl
  · have e : (2147483650 : ℕ) = 2147483647 + 1 + 2 := by norm_num
    obtain ⟨-, -, h3⟩ := tx_send_md_wrapped (v2_tx_params main_params_unit) 2 (by norm_num)
    rw [e, h3]
    norm_num [sched_closed, tx_timespec_tx_tdd_eq, v2_tx_params, main_params_unit,
      time_spec_secs, time_spec_ticks]
  · norm_num [main_params_unit]


/-! ## Claims on the receive loops and on `main` -/

/-- C4.  In the strict loop of tdd_test_v1, in every run, a `recv` that reports
ERROR_CODE_TIMEOUT is followed only by the timeout report and the return of
`main`: no throw, no `send`, no further stream command.  The cycle consists of
its stream command, the `recv`, the report and the return, and a timeout in
the first cycle leaves the whole session without any `send`. -/
theorem v1_timeout_ends_loop (p : MainParams) :
    (∀ (inputs : List V1Input) (pre post : List Event) (nsamps : ℕ) (timeout : ℚ) (n : ℕ)
        (md : rx_metadata_t),
        v1_main p inputs = pre ++ Event.recv nsamps timeout n md :: post →
        md.error_code = error_code_t.ERROR_CODE_TIMEOUT →
        post = [Event.log Message.received_timeout, Event.ret]) ∧
      (∀ (s : V1State) (inp : V1Input) (rest : List V1Input),
        inp.rx_md.error_code = error_code_t.ERROR_CODE_TIMEOUT →
        v1_loop p s (inp :: rest) =
          [Event.issue_stream_cmd (v1_stream_cmd p s),
           Event.recv p.rx_max_num_samps s.timeout inp.num_rx_samps inp.rx_md,
           Event.log Message.received_timeout, Event.ret]) ∧
      (∀ (inp : V1Input) (rest : List V1Input),
        inp.rx_md.error_code = error_code_t.ERROR_CODE_TIMEOUT →
        sends_of (v1_main p (inp :: rest)) = []) := by
  have hcycle : ∀ (s : V1State) (inp : V1Input) (rest : List V1Input),
      inp.rx_md.error_code = error_code_t.ERROR_CODE_TIMEOUT →
      v1_loop p s (inp :: rest) =
        [Event.issue_stream_cmd (v1_stream_cmd p s),
         Event.recv p.rx_max_num_samps s.timeout inp.num_rx_samps inp.rx_md,
         Event.log Message.received_timeout, Event.ret] := by
    intro s inp rest h
    rw [v1_loop, if_pos h]
  refine ⟨?_, hcycle, ?_⟩
  · intro inputs pre post nsamps timeout n md h ht
    exact (v1_main_followed p inputs pre _ post h).1 ht
  · intro inp rest h
    rcases hd : (detect_channels p false).2 with _ | l
    · rw [v1_main_rejected p _ hd]; rfl
    · rw [v1_main_accepted p _ l hd, hcycle _ inp rest h]; rfl

/-- C4, witness: the default command line with a timeout in the first cycle. -/
theorem v1_timeout_ends_loop_witness :
    (v1_main main_params_default [v1_input_timeout] =
        (v1_setup main_params_default ++
          [Event.issue_stream_cmd (v1_stream_cmd main_params_default
            (v1_init main_params_default))]) ++
        Event.recv 2000 (16 / 10) 0 ⟨error_code_t.ERROR_CODE_TIMEOUT, 0⟩ ::
          [Event.log Message.received_timeout, Event.ret] ∧
      v1_input_timeout.rx_md.error_code = error_code_t.ERROR_CODE_TIMEOUT) ∧
    [Event.log Message.received_timeout, Event.ret] =
      [Event.log Message.received_timeout, Event.ret] ∧
    sends_of (v1_main main_params_default [v1_input_timeout]) = [] := by
  have h : v1_main main_params_default [v1_input_timeout] =
      (v1_setup main_params_default ++
        [Event.issue_stream_cmd (v1_stream_cmd main_params_default
          (v1_init main_params_default))]) ++
      Event.recv 2000 (16 / 10) 0 ⟨error_code_t.ERROR_CODE_TIMEOUT, 0⟩ ::
        [Event.log Message.received_timeout, Event.ret] := by
    simp [v1_main, detect_channels, detect_from, main_params_default, v1_loop, v1_init,
      v1_input_timeout]
    norm_num
  exact ⟨⟨h, rfl⟩,
    (v1_timeout_ends_loop main_params_default).1 _ _ _ _ _ _ _ h rfl,
    (v1_timeout_ends_loop main_params_default).2.2 v1_input_timeout [] rfl⟩

/-- C5 (amended).  In the strict loop of tdd_test_v1, in every run, a `recv`
that returns fewer samples than `tdd_rx_samps` with ERROR_CODE_NONE is followed
only by the report "not all samples transmitted" and the return of `main`: the
short read does not throw, and it ends the loop without the `send` of that
cycle. -/
theorem v1_short_read_ends_loop (p : MainParams) :
    (∀ (inputs : List V1Input) (pre post : List Event) (nsamps : ℕ) (timeout : ℚ) (n : ℕ)
        (md : rx_metadata_t),
        v1_main p inputs = pre ++ Event.recv nsamps timeout n md :: post →
        md.error_code = error_code_t.ERROR_CODE_NONE → n < p.tdd_rx_samps →
        post = [Event.log Message.not_all_samples, Event.ret]) ∧
      (∀ (s : V1State) (inp : V1Input) (rest : List V1Input),
        inp.rx_md.error_code = error_code_t.ERROR_CODE_NONE →
        inp.num_rx_samps < p.tdd_rx_samps →
        v1_loop p s (inp :: rest) =
          [Event.issue_stream_cmd (v1_stream_cmd p s),
           Event.recv p.rx_max_num_samps s.timeout inp.num_rx_samps inp.rx_md,
           Event.log Message.not_all_samples, Event.ret]) := by
  refine ⟨?_, ?_⟩
  · intro inputs pre post nsamps timeout n md h hn hlt
    exact (v1_main_followed p inputs pre _ post h).2.2.1 hn hlt
  · intro s inp rest hn hlt
    rw [v1_loop, if_neg (by rw [hn]; decide), if_neg (not_not_intro hn), if_pos hlt]

/-- C5, counterexample.  With the default command line, a first cycle whose
`recv` returns 9999 of the 10000 samples with ERROR_CODE_NONE is followed by
the report and the return of `main`; no `send` is made in the session although
a complete second cycle was available. -/
theorem v1_short_read_no_send :
    v1_main main_params_default [v1_input_short, v1_input_full] =
        v1_setup main_params_default ++
          [Event.issue_stream_cmd (v1_stream_cmd main_params_default
            (v1_init main_params_default)),
           Event.recv 2000 (16 / 10) 9999 ⟨error_code_t.ERROR_CODE_NONE, 3 / 2⟩,
           Event.log Message.not_all_samples, Event.ret] ∧
      sends_of (v1_main main_params_default [v1_input_short, v1_input_full]) = [] := by
  have h : v1_main main_params_default [v1_input_short, v1_input_full] =
      v1_setup main_params_default ++
        [Event.issue_stream_cmd (v1_stream_cmd main_params_default
          (v1_init main_params_default)),
         Event.recv 2000 (16 / 10) 9999 ⟨error_code_t.ERROR_CODE_NONE, 3 / 2⟩,
         Event.log Message.not_all_samples, Event.ret] := by
    simp [v1_main, detect_channels, detect_from, main_params_default, v1_loop, v1_init,
      v1_input_short]
    norm_num
  refine ⟨h, ?_⟩
  rw [h]
  rfl

/-- C5, witness: the run of the counterexample. -/
theorem v1_short_read_ends_loop_witness :
    (v1_main main_params_default [v1_input_short, v1_input_full] =
        (v1_setup main_params_default ++
          [Event.issue_stream_cmd (v1_stream_cmd main_params_default
            (v1_init main_params_default))]) ++
        Event.recv 2000 (16 / 10) 9999 ⟨error_code_t.ERROR_CODE_NONE, 3 / 2⟩ ::
          [Event.log Message.not_all_samples, Event.ret] ∧
      (⟨error_code_t.ERROR_CODE_NONE, 3 / 2⟩ : rx_metadata_t).error_code =
        error_code_t.ERROR_CODE_NONE ∧
      9999 < main_params_default.tdd_rx_samps) ∧
    [Event.log Message.not_all_samples, Event.ret] =
      [Event.log Message.not_all_samples, Event.ret] := by
  have h : v1_main main_params_default [v1_input_short, v1_input_full] =
      (v1_setup main_params_default ++
        [Event.issue_stream_cmd (v1_stream_cmd main_params_default
          (v1_init main_params_default))]) ++
      Event.recv 2000 (16 / 10) 9999 ⟨error_code_t.ERROR_CODE_NONE, 3 / 2⟩ ::
        [Event.log Message.not_all_samples, Event.ret] := by
    simp [v1_main, detect_channels, detect_from, main_params_default, v1_loop, v1_init,
      v1_input_short]
    norm_num
  have hlt : 9999 < main_params_default.tdd_rx_samps := by
    norm_num [main_params_default]
  exact ⟨⟨h, rfl, hlt⟩,
    (v1_short_read_ends_loop main_params_default).1 _ _ _ _ _ _ _ h rfl hlt⟩


/-- C6.  In both programs, in every run, a `recv` is followed directly by a
throw if and only if the error code it reports is neither ERROR_CODE_NONE nor
ERROR_CODE_TIMEOUT, and then the throw "Receiver error" is all that follows:
no `send` in the faulting cycle of tdd_test_v1, no further `recv` in
tdd_test_v2. -/
theorem recv_fault_raises (p : MainParams) :
    (∀ (inputs : List V1Input) (pre post : List Event) (nsamps : ℕ) (timeout : ℚ) (n : ℕ)
        (md : rx_metadata_t),
        v1_main p inputs = pre ++ Event.recv nsamps timeout n md :: post →
        ((∃ what post1, post = Event.raise what :: post1) ↔
          (md.error_code ≠ error_code_t.ERROR_CODE_NONE ∧
            md.error_code ≠ error_code_t.ERROR_CODE_TIMEOUT)) ∧
        (md.error_code ≠ error_code_t.ERROR_CODE_NONE →
          md.error_code ≠ error_code_t.ERROR_CODE_TIMEOUT →
          post = [Event.raise "Receiver error"])) ∧
      (∀ (stops : List Bool) (recvs : List RecvInput) (pre post : List Event) (nsamps : ℕ)
        (timeout : ℚ) (n : ℕ) (md : rx_metadata_t),
        v2_main p stops recvs = pre ++ Event.recv nsamps timeout n md :: post →
        ((∃ what post1, post = Event.raise what :: post1) ↔
          (md.error_code ≠ error_code_t.ERROR_CODE_NONE ∧
            md.error_code ≠ error_code_t.ERROR_CODE_TIMEOUT)) ∧
        (md.error_code ≠ error_code_t.ERROR_CODE_NONE →
          md.error_code ≠ error_code_t.ERROR_CODE_TIMEOUT →
          post = [Event.raise "Receiver error"])) := by
  refine ⟨?_, ?_⟩
  · intro inputs pre post nsamps timeout n md h
    obtain ⟨h1, h2, h3, h4⟩ := v1_main_followed p inputs pre _ post h
    refine ⟨⟨?_, fun hc => ⟨_, _, h2 hc.2 hc.1⟩⟩, fun ha hb => h2 hb ha⟩
    rintro ⟨what, post1, rfl⟩
    refine ⟨fun hn => ?_, fun ht => ?_⟩
    · by_cases hlt : n < p.tdd_rx_samps
      · simpa using h3 hn hlt
      · obtain ⟨md1, k, post2, hp, -⟩ := h4 hn hlt
        simp at hp
    · simpa using h1 ht
  · intro stops recvs pre post nsamps timeout n md h
    obtain ⟨h1, h2, h3⟩ := v2_main_followed p stops recvs pre _ post h
    refine ⟨⟨?_, fun hc => ⟨_, _, h2 hc.2 hc.1⟩⟩, fun ha hb => h2 hb ha⟩
    rintro ⟨what, post1, rfl⟩
    refine ⟨fun hn => h3 hn what post1 rfl, fun ht => ?_⟩
    obtain ⟨k, post2, hp⟩ := h1 ht
    simp at hp

/-- C6, witness: with the default command line, a `recv` that reports an
overflow in the first cycle of tdd_test_v1. -/
theorem recv_fault_raises_witness :
    (v1_main main_params_default [v1_input_fault, v1_input_full] =
        (v1_setup main_params_default ++
          [Event.issue_stream_cmd (v1_stream_cmd main_params_default
            (v1_init main_params_default))]) ++
        Event.recv 2000 (16 / 10) 0 ⟨error_code_t.ERROR_CODE_OTHER 8, 0⟩ ::
          [Event.raise "Receiver error"] ∧
      (⟨error_code_t.ERROR_CODE_OTHER 8, 0⟩ : rx_metadata_t).error_code ≠
        error_code_t.ERROR_CODE_NONE ∧
      (⟨error_code_t.ERROR_CODE_OTHER 8, 0⟩ : rx_metadata_t).error_code ≠
        error_code_t.ERROR_CODE_TIMEOUT) ∧
    [Event.raise "Receiver error"] = [Event.raise "Receiver error"] := by
  have h : v1_main main_params_default [v1_input_fault, v1_input_full] =
      (v1_setup main_params_default ++
        [Event.issue_stream_cmd (v1_stream_cmd main_params_default
          (v1_init main_params_default))]) ++
      Event.recv 2000 (16 / 10) 0 ⟨error_code_t.ERROR_CODE_OTHER 8, 0⟩ ::
        [Event.raise "Receiver error"] := by
    simp [v1_main, detect_channels, detect_from, main_params_default, v1_loop, v1_init,
      v1_input_fault]
    norm_num
  exact ⟨⟨h, by decide, by decide⟩,
    ((recv_fault_raises main_params_default).1 _ _ _ _ _ _ _ h).2 (by decide) (by decide)⟩

/-- C7.  In tdd_test_v2, in every run, once a loop condition finds
`stop_signal_called` set the loop is left: in `transmit_worker` only the return
follows (no further `set_command_time`, `set_gpio_attr` or `send`), and in
`main` only the STREAM_MODE_STOP_CONTINUOUS command on the receive stream and
the return follow (no further `recv`). -/
theorem stop_flag_ends_loops (p : MainParams) :
    (∀ (inputs : List TxInput) (pre post : List Event),
        transmit_worker (v2_tx_params p) inputs = pre ++ Event.check_stop true :: post →
        post = [Event.ret]) ∧
      (∀ (stops : List Bool) (recvs : List RecvInput) (pre post : List Event),
        v2_main p stops recvs = pre ++ Event.check_stop true :: post →
        post =
          [Event.issue_stream_cmd
            (v2_stream_cmd p stream_mode_t.STREAM_MODE_STOP_CONTINUOUS), Event.ret]) :=
  ⟨fun inputs pre post h => tx_loop_followed _ inputs _ pre _ post h,
    fun stops recvs pre post h => v2_main_followed p stops recvs pre _ post h⟩


/-- C7, witness: with the default command line, the stop flag is found set
after one cycle of each loop. -/
theorem stop_flag_ends_loops_witness :
    (transmit_worker (v2_tx_params main_params_default) [⟨false, 10000⟩, ⟨true, 0⟩] =
        (Event.check_stop false ::
          tx_calls (v2_tx_params main_params_default)
            (tx_blocks (v2_tx_params main_params_default)
              (tx_init (v2_tx_params main_params_default))) 10000) ++
        Event.check_stop true :: [Event.ret] ∧
      v2_main main_params_default [true] [⟨10000, ⟨error_code_t.ERROR_CODE_NONE, 3 / 2⟩⟩] =
        ([Event.set_rx_freq 0, Event.set_tx_freq 0] ++ v2_setup main_params_default [0] ++
          [Event.recv 10000 (16 / 10) 10000 ⟨error_code_t.ERROR_CODE_NONE, 3 / 2⟩]) ++
        Event.check_stop true ::
          [Event.issue_stream_cmd
            (v2_stream_cmd main_params_default stream_mode_t.STREAM_MODE_STOP_CONTINUOUS),
           Event.ret]) ∧
    [Event.ret] = [Event.ret] ∧
    [Event.issue_stream_cmd
        (v2_stream_cmd main_params_default stream_mode_t.STREAM_MODE_STOP_CONTINUOUS),
      Event.ret] =
      [Event.issue_stream_cmd
        (v2_stream_cmd main_params_default stream_mode_t.STREAM_MODE_STOP_CONTINUOUS),
       Event.ret] := by
  have h1 : transmit_worker (v2_tx_params main_params_default) [⟨false, 10000⟩, ⟨true, 0⟩] =
      (Event.check_stop false ::
        tx_calls (v2_tx_params main_params_default)
          (tx_blocks (v2_tx_params main_params_default)
            (tx_init (v2_tx_params main_params_default))) 10000) ++
      Event.check_stop true :: [Event.ret] := by
    simp [transmit_worker, tx_loop]
  have h2 : v2_main main_params_default [true]
      [⟨10000, ⟨error_code_t.ERROR_CODE_NONE, 3 / 2⟩⟩] =
      ([Event.set_rx_freq 0, Event.set_tx_freq 0] ++ v2_setup main_params_default [0] ++
        [Event.recv 10000 (16 / 10) 10000 ⟨error_code_t.ERROR_CODE_NONE, 3 / 2⟩]) ++
      Event.check_stop true ::
        [Event.issue_stream_cmd
          (v2_stream_cmd main_params_default stream_mode_t.STREAM_MODE_STOP_CONTINUOUS),
         Event.ret] := by
    simp [v2_main, detect_channels, detect_from, main_params_default, v2_loop, v2_cycle,
      v2_window, v2_leave, v2_epilogue, size_sub, size_wrap]
    norm_num
  exact ⟨⟨h1, h2⟩,
    (stop_flag_ends_loops main_params_default).1 _ _ _ h1,
    (stop_flag_ends_loops main_params_default).2 _ _ _ _ h2⟩

/-- C8.  Channel detection throws "Invalid channel(s) specified." if and only
if some index of the list is `≥` the tx channel count or `≥` the rx channel
count.  When it throws, the throw ends the run: tdd_test_v1 has made no device
call, tdd_test_v2 only the tuning calls of the channels accepted before (no
rate setting, clock reset, stream creation or stream command).  When it does
not throw, `channel_nums` is the list of the indices in their order. -/
theorem channel_validation (p : MainParams) (tune : Bool) :
    ((detect_channels p tune).2 = none ↔
        ∃ c ∈ p.chans, c ≥ p.tx_num_channels ∨ c ≥ p.rx_num_channels) ∧
      ((∃ c ∈ p.chans, c ≥ p.tx_num_channels ∨ c ≥ p.rx_num_channels) →
        (∀ inputs, v1_main p inputs = [Event.raise "Invalid channel(s) specified."]) ∧
        (∀ stops recvs, ∃ pre : List Event,
          (∀ e ∈ pre, ∃ c, e = Event.set_rx_freq c ∨ e = Event.set_tx_freq c) ∧
          v2_main p stops recvs = pre ++ [Event.raise "Invalid channel(s) specified."])) ∧
      ((∀ c ∈ p.chans, c < p.tx_num_channels ∧ c < p.rx_num_channels) →
        (detect_channels p tune).2 = some p.chans) := by
  refine ⟨detect_from_none_iff _ _ tune p.chans 0 [], fun h => ⟨fun inputs => ?_,
    fun stops recvs => ?_⟩, fun h => ?_⟩
  · exact v1_main_rejected p inputs ((detect_from_none_iff _ _ false p.chans 0 []).mpr h)
  · exact v2_main_rejected p stops recvs ((detect_from_none_iff _ _ true p.chans 0 []).mpr h)
  · simpa [detect_channels] using detect_from_some _ _ tune p.chans 0 [] h

/-- C8, witness: channel lists `0,2` and `0,1` on a device with two channels
each way. -/
theorem channel_validation_witness :
    ((∃ c ∈ [0, 2], c ≥ 2 ∨ c ≥ 2) ∧
      v1_main ⟨3 / 2, 10000, 10000, 6250000, [0, 2], 2, 2, 2000⟩ [v1_input_full] =
        [Event.raise "Invalid channel(s) specified."]) ∧
    ((∀ c ∈ [0, 1], c < 2 ∧ c < 2) ∧
      (detect_channels ⟨3 / 2, 10000, 10000, 6250000, [0, 1], 2, 2, 2000⟩ true).2 =
        some [0, 1]) :=
  ⟨⟨⟨2, by simp, Or.inl (le_refl 2)⟩,
    ((channel_validation ⟨3 / 2, 10000, 10000, 6250000, [0, 2], 2, 2, 2000⟩ false).2.1
      ⟨2, by simp, Or.inl (le_refl 2)⟩).1 [v1_input_full]⟩,
   ⟨by decide,
    (channel_validation ⟨3 / 2, 10000, 10000, 6250000, [0, 1], 2, 2, 2000⟩ true).2.2
      (by decide)⟩⟩

/-- C10 (the code at the failing input).  In tdd_test_v1 the transmit
time_spec is the received time_spec plus `timespec_tx_advance`, which the
two-argument constructor makes `2*tdd_rx_samps + tdd_tx_samps` seconds: the
sample count is not divided by the rate.  With the default command line a
packet received at 1.5 s is sent with time_spec 30001.5 s, not the
`1.5 + 30000 / 6.25e6` s of the claim.  The RX start time does advance by
`tdd_tx_samps / rate` per completed cycle. -/
theorem v1_tx_advance_not_divided_by_rate :
    (∀ (p : MainParams) (s : V1State) (inp : V1Input),
        (v1_tx_md p s inp).time_spec =
          inp.rx_md.time_spec + ((size_wrap (2 * p.tdd_rx_samps + p.tdd_tx_samps) : ℕ) : ℚ) ∧
        (v1_next p s inp).timespec_rx = s.timespec_rx + (p.tdd_tx_samps : ℚ) / p.rate) ∧
      sends_of (v1_main main_params_default [v1_input_full]) =
        [⟨true, true, true, 3 / 2 + 30000⟩] ∧
      (3 / 2 + 30000 : ℚ) ≠ 3 / 2 + (2 * 10000 + 10000) / 6250000 := by
  refine ⟨fun p s inp => ⟨?_, ?_⟩, ?_, by norm_num⟩
  · simp [v1_tx_md, v1_timespec_tx_advance, time_spec_frac]
  · simp [v1_next, v1_timespec_tx_tdd, time_spec_ticks]
  · simp [v1_main, detect_channels, detect_from, main_params_default, v1_loop, v1_init,
      v1_input_full, v1_setup, sends_of, v1_tx_md, v1_timespec_tx_advance, time_spec_frac,
      size_wrap, time_spec_secs]


/-! ## The receive window of tdd_test_v2 -/

theorem size_sub_of_le (a b : ℕ) (hb : b ≤ a) (ha : a < 2 ^ 64) : size_sub a b = a - b := by
  unfold size_sub
  norm_num at ha ⊢
  omega

theorem size_wrap_of_lt (n : ℕ) (h : n < 2 ^ 64) : size_wrap n = n := by
  unfold size_wrap
  exact Nat.mod_eq_of_lt h

theorem acc_after_recv (num nsamps : ℕ) (t : ℚ) (n : ℕ) (md : rx_metadata_t)
    (es : List Event) :
    acc_after num (Event.recv nsamps t n md :: es) = acc_after (size_wrap (num + n)) es := rfl

theorem acc_after_append_recv (pre : List Event) (nsamps : ℕ) (t : ℚ) (n : ℕ)
    (md : rx_metadata_t) :
    ∀ num, acc_after num (pre ++ [Event.recv nsamps t n md]) =
      size_wrap (acc_after num pre + n) := by
  induction pre with
  | nil => intro num; rfl
  | cons e pre ih => intro num; cases e <;> simp [acc_after, ih]

/-- The first `recv` of a window entered with `num < tdd_rx_samps`. -/
theorem v2_first_call (p : MainParams) (hsize : p.tdd_rx_samps < 2 ^ 64) (num n : ℕ)
    (hle : num ≤ p.tdd_rx_samps) (hne : num ≠ p.tdd_rx_samps)
    (hn : n ≤ size_sub p.tdd_rx_samps num) :
    num < p.tdd_rx_samps ∧ size_sub p.tdd_rx_samps num = p.tdd_rx_samps - num ∧
      size_wrap (num + n) = num + n ∧ num + n ≤ p.tdd_rx_samps := by
  have h1 : num < p.tdd_rx_samps := lt_of_le_of_ne hle hne
  have h2 := size_sub_of_le p.tdd_rx_samps num hle hsize
  rw [h2] at hn
  have h3 : num + n ≤ p.tdd_rx_samps := by omega
  exact ⟨h1, h2, size_wrap_of_lt _ (lt_of_le_of_lt h3 hsize), h3⟩

/-- The inner loop entered with `num ≤ tdd_rx_samps`: every `recv` finds the
accumulator below `tdd_rx_samps`, requests the difference and leaves the
accumulator at most `tdd_rx_samps`. -/
theorem v2_window_calls (p : MainParams) (hsize : p.tdd_rx_samps < 2 ^ 64)
    (recvs : List RecvInput) :
    ∀ (num : ℕ) (timeout : ℚ), num ≤ p.tdd_rx_samps →
      (∀ nsamps t n md,
        Event.recv nsamps t n md ∈ (v2_window p num timeout recvs).1 → n ≤ nsamps) →
      ∀ pre nsamps t n md post,
        (v2_window p num timeout recvs).1 = pre ++ Event.recv nsamps t n md :: post →
        acc_after num pre < p.tdd_rx_samps ∧
        nsamps = size_sub p.tdd_rx_samps (acc_after num pre) ∧
        nsamps = p.tdd_rx_samps - acc_after num pre ∧
        acc_after num (pre ++ [Event.recv nsamps t n md]) = acc_after num pre + n ∧
        acc_after num (pre ++ [Event.recv nsamps t n md]) ≤ p.tdd_rx_samps := by
  induction recvs with
  | nil =>
    intro num timeout _ _ pre nsamps t n md post h
    by_cases hfull : num = p.tdd_rx_samps
    · rw [v2_window_full p num timeout [] hfull] at h; simp at h
    · rw [v2_window_nil p num timeout hfull] at h; simp at h
  | cons r rest ih =>
    intro num timeout hle hret pre nsamps t n md post h
    by_cases hfull : num = p.tdd_rx_samps
    · rw [v2_window_full p num timeout _ hfull] at h; simp at h
    · have hfirst : ∀ tail : List Event,
          (v2_window p num timeout (r :: rest)).1 =
            Event.recv (size_sub p.tdd_rx_samps num) timeout r.num_rx_samps r.rx_md :: tail →
          r.num_rx_samps ≤ size_sub p.tdd_rx_samps num := by
        intro tail ht
        exact hret _ timeout _ r.rx_md (by rw [ht]; exact List.mem_cons_self _ _)
      have hhead : ∀ tail : List Event,
          (v2_window p num timeout (r :: rest)).1 =
            Event.recv (size_sub p.tdd_rx_samps num) timeout r.num_rx_samps r.rx_md :: tail →
          pre = [] →
          Event.recv nsamps t n md =
            Event.recv (size_sub p.tdd_rx_samps num) timeout r.num_rx_samps r.rx_md →
          acc_after num pre < p.tdd_rx_samps ∧
          nsamps = size_sub p.tdd_rx_samps (acc_after num pre) ∧
          nsamps = p.tdd_rx_samps - acc_after num pre ∧
          acc_after num (pre ++ [Event.recv nsamps t n md]) = acc_after num pre + n ∧
          acc_after num (pre ++ [Event.recv nsamps t n md]) ≤ p.tdd_rx_samps := by
        intro tail ht hpre he
        obtain ⟨h1, h2, h3, h4⟩ :=
          v2_first_call p hsize num r.num_rx_samps hle hfull (hfirst tail ht)
        subst hpre
        injection he with e1 e2 e3 e4
        subst e1 e3
        exact ⟨h1, rfl, h2, h3, le_of_eq_of_le h3 h4⟩
      by_cases h1 : r.rx_md.error_code = error_code_t.ERROR_CODE_TIMEOUT
      · have hw := v2_window_timeout p num timeout r rest hfull h1
        rw [hw] at h
        rcases pre with _ | ⟨a, pre1⟩
        · simp only [List.nil_append, List.cons.injEq] at h
          exact hhead _ (by rw [hw]) rfl h.1.symm
        · rcases pre1 with _ | ⟨b, pre2⟩ <;> simp at h
      · by_cases h2 : r.rx_md.error_code = error_code_t.ERROR_CODE_NONE
        · have hw := v2_window_none p num timeout r rest hfull h2
          rw [hw] at h
          rcases pre with _ | ⟨a, pre1⟩
          · simp only [List.nil_append, List.cons.injEq] at h
            exact hhead _ (by rw [hw]) rfl h.1.symm
          · simp only [List.cons_append, List.cons.injEq] at h
            obtain ⟨ha, hrest⟩ := h
            obtain ⟨-, -, h3, h4⟩ :=
              v2_first_call p hsize num r.num_rx_samps hle hfull (hfirst _ (by rw [hw]))
            have hret1 : ∀ nsamps t n md,
                Event.recv nsamps t n md ∈
                  (v2_window p (size_wrap (num + r.num_rx_samps)) (1 / 10) rest).1 →
                n ≤ nsamps := by
              intro a1 a2 a3 a4 hm
              exact hret a1 a2 a3 a4 (by rw [hw]; exact List.mem_cons_of_mem _ hm)
            have := ih (size_wrap (num + r.num_rx_samps)) (1 / 10) (by rw [h3]; exact h4)
              hret1 pre1 nsamps t n md post hrest
            subst ha
            simpa only [List.cons_append, acc_after_recv] using this
        · have hw := v2_window_error p num timeout r rest hfull h1 h2
          rw [hw] at h
          rcases pre with _ | ⟨a, pre1⟩
          · simp only [List.nil_append, List.cons.injEq] at h
            exact hhead _ (by rw [hw]) rfl h.1.symm
          · rcases pre1 with _ | ⟨b, pre2⟩ <;> simp at h

/-- The inner loop is left by its condition with the accumulator equal to
`tdd_rx_samps`, or by the `break` after a `recv` that reported a timeout; the
accumulator it is left with is the one built up by the `recv` calls. -/
theorem v2_window_left (p : MainParams) (recvs : List RecvInput) :
    ∀ (num : ℕ) (timeout : ℚ) (numf : ℕ) (t : ℚ) (rest : List RecvInput),
      (v2_window p num timeout recvs).2 = WindowEnd.left numf t rest →
      numf = acc_after num (v2_window p num timeout recvs).1 ∧
      (numf = p.tdd_rx_samps ∨
        ∃ pre nsamps t1 n md,
          md.error_code = error_code_t.ERROR_CODE_TIMEOUT ∧
          (v2_window p num timeout recvs).1 =
            pre ++ [Event.recv nsamps t1 n md,
              Event.log (Message.received_timeout_samples numf)]) := by
  induction recvs with
  | nil =>
    intro num timeout numf t rest h
    by_cases hfull : num = p.tdd_rx_samps
    · rw [v2_window_full p num timeout [] hfull] at h ⊢
      injection h with e1 e2 e3
      subst e1
      exact ⟨rfl, Or.inl hfull⟩
    · rw [v2_window_nil p num timeout hfull] at h
      exact absurd h (by simp)
  | cons r rest1 ih =>
    intro num timeout numf t rest h
    by_cases hfull : num = p.tdd_rx_samps
    · rw [v2_window_full p num timeout _ hfull] at h ⊢
      injection h with e1 e2 e3
      subst e1
      exact ⟨rfl, Or.inl hfull⟩
    · by_cases h1 : r.rx_md.error_code = error_code_t.ERROR_CODE_TIMEOUT
      · rw [v2_window_timeout p num timeout r rest1 hfull h1] at h ⊢
        injection h with e1 e2 e3
        subst e1
        exact ⟨rfl, Or.inr ⟨[], _, _, _, _, h1, rfl⟩⟩
      · by_cases h2 : r.rx_md.error_code = error_code_t.ERROR_CODE_NONE
        · rw [v2_window_none p num timeout r rest1 hfull h2] at h ⊢
          obtain ⟨ha, hb⟩ := ih _ _ numf t rest h
          refine ⟨by rw [acc_after_recv]; exact ha, ?_⟩
          rcases hb with hb | ⟨pre, nsamps, t1, n, md, hm, hp⟩
          · exact Or.inl hb
          · exact Or.inr ⟨_ :: pre, nsamps, t1, n, md, hm, by rw [hp]; rfl⟩
        · rw [v2_window_error p num timeout r rest1 hfull h1 h2] at h
          exact absurd h (by simp)

/-- The inner loop is left by a throw only after a `recv` that reported an
error code other than NONE and TIMEOUT. -/
theorem v2_window_raised (p : MainParams) (recvs : List RecvInput) :
    ∀ (num : ℕ) (timeout : ℚ),
      (v2_window p num timeout recvs).2 = WindowEnd.raised →
      ∃ pre nsamps t1 n md,
        md.error_code ≠ error_code_t.ERROR_CODE_NONE ∧
        md.error_code ≠ error_code_t.ERROR_CODE_TIMEOUT ∧
        (v2_window p num timeout recvs).1 =
          pre ++ [Event.recv nsamps t1 n md, Event.raise "Receiver error"] := by
  induction recvs with
  | nil =>
    intro num timeout h
    by_cases hfull : num = p.tdd_rx_samps
    · rw [v2_window_full p num timeout [] hfull] at h
      exact absurd h (by simp)
    · rw [v2_window_nil p num timeout hfull] at h
      exact absurd h (by simp)
  | cons r rest1 ih =>
    intro num timeout h
    by_cases hfull : num = p.tdd_rx_samps
    · rw [v2_window_full p num timeout _ hfull] at h
      exact absurd h (by simp)
    · by_cases h1 : r.rx_md.error_code = error_code_t.ERROR_CODE_TIMEOUT
      · rw [v2_window_timeout p num timeout r rest1 hfull h1] at h
        exact absurd h (by simp)
      · by_cases h2 : r.rx_md.error_code = error_code_t.ERROR_CODE_NONE
        · rw [v2_window_none p num timeout r rest1 hfull h2] at h ⊢
          obtain ⟨pre, nsamps, t1, n, md, hm1, hm2, hp⟩ := ih _ _ h
          exact ⟨_ :: pre, nsamps, t1, n, md, hm1, hm2, by rw [hp]; rfl⟩
        · rw [v2_window_error p num timeout r rest1 hfull h1 h2]
          exact ⟨[], _, _, _, _, h2, h1, rfl⟩

/-- C11.  In the continuous receive loop of tdd_test_v2, every pass through the
outer loop body runs the inner loop from `num_rx_samps = 0`.  For a
`tdd_rx_samps` that is a `size_t` value and a window in which every `recv`
returns at most the count requested: each `recv` finds the accumulator built
up from 0 by the earlier `recv` calls of the window below `tdd_rx_samps`,
requests exactly `tdd_rx_samps - num_rx_samps` (the `size_t` subtraction does
not underflow), adds what it returned without wrapping and leaves
`num_rx_samps ≤ tdd_rx_samps`.  The inner loop is left only with
`num_rx_samps = tdd_rx_samps`, after a `recv` that reported TIMEOUT, or by the
throw after a `recv` that reported another error code. -/
theorem v2_window_accumulates (p : MainParams) (hsize : p.tdd_rx_samps < 2 ^ 64)
    (timeout : ℚ) (recvs : List RecvInput)
    (hret : ∀ nsamps t n md,
      Event.recv nsamps t n md ∈ (v2_window p 0 timeout recvs).1 → n ≤ nsamps) :
    (∀ k, v2_cycle p k timeout recvs = v2_leave p k (v2_window p 0 timeout recvs)) ∧
      (∀ pre nsamps t n md post,
        (v2_window p 0 timeout recvs).1 = pre ++ Event.recv nsamps t n md :: post →
        acc_after 0 pre < p.tdd_rx_samps ∧
        nsamps = size_sub p.tdd_rx_samps (acc_after 0 pre) ∧
        nsamps = p.tdd_rx_samps - acc_after 0 pre ∧
        acc_after 0 (pre ++ [Event.recv nsamps t n md]) = acc_after 0 pre + n ∧
        acc_after 0 (pre ++ [Event.recv nsamps t n md]) ≤ p.tdd_rx_samps) ∧
      (∀ numf t rest, (v2_window p 0 timeout recvs).2 = WindowEnd.left numf t rest →
        numf = acc_after 0 (v2_window p 0 timeout recvs).1 ∧
        (numf = p.tdd_rx_samps ∨
          ∃ pre nsamps t1 n md,
            md.error_code = error_code_t.ERROR_CODE_TIMEOUT ∧
            (v2_window p 0 timeout recvs).1 =
              pre ++ [Event.recv nsamps t1 n md,
                Event.log (Message.received_timeout_samples numf)])) ∧
      ((v2_window p 0 timeout recvs).2 = WindowEnd.raised →
        ∃ pre nsamps t1 n md,
          md.error_code ≠ error_code_t.ERROR_CODE_NONE ∧
          md.error_code ≠ error_code_t.ERROR_CODE_TIMEOUT ∧
          (v2_window p 0 timeout recvs).1 =
            pre ++ [Event.recv nsamps t1 n md, Event.raise "Receiver error"]) :=
  ⟨fun _ => rfl,
    v2_window_calls p hsize recvs 0 timeout (Nat.zero_le _) hret,
    v2_window_left p recvs 0 timeout,
    v2_window_raised p recvs 0 timeout⟩


/-- C11, witness: with the default command line, a window of 10000 samples
delivered in two chunks of 2000 and 8000 samples.  The second `recv` finds
`num_rx_samps = 2000`, requests 8000 samples and leaves `num_rx_samps = 10000`,
with which the inner loop is left. -/
theorem v2_window_accumulates_witness :
    (main_params_default.tdd_rx_samps < 2 ^ 64 ∧
      (∀ nsamps t n md,
        Event.recv nsamps t n md ∈
          (v2_window main_params_default 0 (16 / 10) recvs_two_chunks).1 → n ≤ nsamps) ∧
      (v2_window main_params_default 0 (16 / 10) recvs_two_chunks).1 =
        [Event.recv 10000 (16 / 10) 2000 ⟨error_code_t.ERROR_CODE_NONE, 3 / 2⟩] ++
          Event.recv 8000 (1 / 10) 8000 ⟨error_code_t.ERROR_CODE_NONE, 3 / 2⟩ :: [] ∧
      (v2_window main_params_default 0 (16 / 10) recvs_two_chunks).2 =
        WindowEnd.left 10000 (1 / 10) []) ∧
    (acc_after 0 [Event.recv 10000 (16 / 10) 2000 ⟨error_code_t.ERROR_CODE_NONE, 3 / 2⟩] <
        main_params_default.tdd_rx_samps ∧
      8000 = main_params_default.tdd_rx_samps -
        acc_after 0 [Event.recv 10000 (16 / 10) 2000 ⟨error_code_t.ERROR_CODE_NONE, 3 / 2⟩] ∧
      acc_after 0
        ([Event.recv 10000 (16 / 10) 2000 ⟨error_code_t.ERROR_CODE_NONE, 3 / 2⟩] ++
          [Event.recv 8000 (1 / 10) 8000 ⟨error_code_t.ERROR_CODE_NONE, 3 / 2⟩]) ≤
        main_params_default.tdd_rx_samps) ∧
    10000 = acc_after 0 (v2_window main_params_default 0 (16 / 10) recvs_two_chunks).1 := by
  have hw : v2_window main_params_default 0 (16 / 10) recvs_two_chunks =
      ([Event.recv 10000 (16 / 10) 2000 ⟨error_code_t.ERROR_CODE_NONE, 3 / 2⟩,
        Event.recv 8000 (1 / 10) 8000 ⟨error_code_t.ERROR_CODE_NONE, 3 / 2⟩],
       WindowEnd.left 10000 (1 / 10) []) := by
    simp [v2_window, recvs_two_chunks, main_params_default, size_sub, size_wrap]
  have hsize : main_params_default.tdd_rx_samps < 2 ^ 64 := by
    norm_num [main_params_default]
  have hret : ∀ nsamps t n md,
      Event.recv nsamps t n md ∈
        (v2_window main_params_default 0 (16 / 10) recvs_two_chunks).1 → n ≤ nsamps := by
    intro nsamps t n md h
    rw [hw] at h
    simp only [List.mem_cons, Event.recv.injEq, List.mem_singleton, List.not_mem_nil,
      or_false] at h
    rcases h with ⟨rfl, -, rfl, -⟩ | ⟨rfl, -, rfl, -⟩ <;> norm_num
  have h1 : (v2_window main_params_default 0 (16 / 10) recvs_two_chunks).1 =
      [Event.recv 10000 (16 / 10) 2000 ⟨error_code_t.ERROR_CODE_NONE, 3 / 2⟩] ++
        Event.recv 8000 (1 / 10) 8000 ⟨error_code_t.ERROR_CODE_NONE, 3 / 2⟩ :: [] := by
    rw [hw]; rfl
  have h2 : (v2_window main_params_default 0 (16 / 10) recvs_two_chunks).2 =
      WindowEnd.left 10000 (1 / 10) [] := by
    rw [hw]
  obtain ⟨-, hcalls, hleft, -⟩ :=
    v2_window_accumulates main_params_default hsize (16 / 10) recvs_two_chunks hret
  obtain ⟨c1, -, c3, -, c5⟩ := hcalls _ _ _ _ _ _ h1
  exact ⟨⟨hsize, hret, h1, h2⟩, ⟨c1, c3, c5⟩, (hleft _ _ _ h2).1⟩


end TddTest
